import Mathlib

/-!
rstools: address resolution, memory access, dump and reset sequences

Shallow embedding of the input handling and the memory access of `FPGA-readBridge`,
`FPGA-writeBridge` and `FPGA-dumpBridge`, of the reset routines of `FPGA-reset` and
`FPGA-writeConfig`, and of the register decoding and the descriptor and mapping
handling of `FPGA-status` and `FPGA-reset` (each a `main.cpp`).
Machine integers are natural numbers reduced modulo `2^32` (`uint32_t`), `2^16`
(`uint16_t`) or `2^8` (`uint8_t`) where the C++ arithmetic can wrap.  A C++
`std::string` is a `List Char`.  A computation that may loop forever returns
`Option`, with `none` standing for divergence.  Physical memory is a function from
addresses to 32-bit words.
-/

namespace RsTools

/-! ## Constants shared by the three bridge tools -/

/-- LWHPS2FPGA bridge base address. -/
def LWHPSFPGA_OFST : Nat := 0xff200000
/-- HPS2FPGA bridge base address. -/
def HPSFPGA_OFST : Nat := 0xC0000000
/-- MPU (HPS address space) base address. -/
def MPU_OFSET : Nat := 0x0
/-- Fixed address of the GPI register (FPGA-readBridge). -/
def FPGAMAN_GPI_OFST : Nat := 0xFF706014
/-- Fixed address of the GPO register (FPGA-writeBridge). -/
def FPGAMAN_GPO_OFST : Nat := 0xFF706010
/-- LWHPS2FPGA bridge end address. -/
def LWHPSFPGA_END : Nat := 0xFF3FFFFF
/-- HPS2FPGA bridge end address. -/
def HPSFPGA_END : Nat := 0xFBFFFFFF
/-- MPU end address. -/
def MPU_END : Nat := 0xFFFFFFFF
/-- Allowed input offset of the lightweight bridge: `(LWHPSFPGA_END - LWHPSFPGA_OFST)`. -/
def LWH2F_RANGE : Nat := LWHPSFPGA_END - LWHPSFPGA_OFST
/-- Allowed input offset of the AXI bridge: `(HPSFPGA_END - HPSFPGA_OFST)`. -/
def H2F_RANGE : Nat := HPSFPGA_END - HPSFPGA_OFST
/-- Allowed input offset of the MPU space: `(MPU_END - MPU_OFSET)`. -/
def MPU_RANGE : Nat := MPU_END - MPU_OFSET
/-- Maximum number of dumped rows (FPGA-dumpBridge). -/
def APP_MAX_ROW : Nat := 300
/-- Largest value of a `uint32_t`. -/
def UINT32_MAX : Nat := 0xFFFFFFFF
/-- Value input kinds of FPGA-writeBridge. -/
def DEC_INPUT : Nat := 1
/-- Hex value input of FPGA-writeBridge. -/
def HEX_INPUT : Nat := 0
/-- Bit set or reset input of FPGA-writeBridge. -/
def BIN_INPUT : Nat := 2

/-- Reduction of an arithmetic result to a `uint32_t`. -/
def u32 (n : Nat) : Nat := n % 2 ^ 32

/-- Reduction of an arithmetic result to a `uint16_t`. -/
def u16 (n : Nat) : Nat := n % 2 ^ 16

/-! ## Standard library pieces used by the tools -/

/-- Search used by `std::string::find_first_of`: the index of the first character of
`rest` that belongs to `set`, counted from `k`; `none` when there is none. -/
def findFrom (set : List Char) : List Char → Nat → Option Nat
  | [], _ => none
  | c :: cs, k => if set.contains c then some k else findFrom set cs (k + 1)

/-- The call `input.find_first_of(set, pos)`: the position of the first character at
index `pos` or later that is one of the characters of `set`.  The result `npos` is
`none`. -/
def find_first_of (input set : List Char) (pos : Nat) : Option Nat :=
  findFrom set (input.drop pos) pos

/-- Value of a digit character in the given base (10 or 16), as the stream
extraction reads it. -/
def digitVal (base : Nat) (c : Char) : Option Nat :=
  if 48 ≤ c.toNat ∧ c.toNat ≤ 57 then some (c.toNat - 48)
  else if base = 16 ∧ 97 ≤ c.toNat ∧ c.toNat ≤ 102 then some (c.toNat - 87)
  else if base = 16 ∧ 65 ≤ c.toNat ∧ c.toNat ≤ 70 then some (c.toNat - 55)
  else none

/-- Accumulation of the leading digits of a string, stopping at the first character
that is no digit of the base. -/
def accumDigits (base : Nat) : List Char → Nat → Nat
  | [], acc => acc
  | c :: cs, acc =>
    match digitVal base c with
    | some d => accumDigits base cs (acc * base + d)
    | none => acc

/-- White space skipped by a formatted stream extraction. -/
def isSpace (c : Char) : Bool :=
  c.toNat = 32 || (9 ≤ c.toNat && c.toNat ≤ 13)

/-- Removal of one leading sign character. -/
def dropSign : List Char → List Char
  | '-' :: t => t
  | '+' :: t => t
  | s => s

/-- Removal of a leading hexadecimal base prefix. -/
def dropHexPrefix : List Char → List Char
  | '0' :: 'x' :: t => t
  | '0' :: 'X' :: t => t
  | s => s

/-- The formatted extraction `istringstream(s) >> std::hex|std::dec >> v` into an
unsigned integer of `bits` bits (C++11 `num_get`): leading white space is skipped,
a sign and (base 16) a `0x` prefix are read, then digits up to the first other
character.  Without a digit the value is `0`; a value that does not fit gives
the largest value of the type; a leading minus negates modulo `2^bits`. -/
def extractUnsigned (base bits : Nat) (s : List Char) : Nat :=
  let s1 := s.dropWhile isSpace
  let negative := s1.head? == some '-'
  let s2 := dropSign s1
  let s3 := if base = 16 then dropHexPrefix s2 else s2
  let v := accumDigits base s3 0
  if v > 2 ^ bits - 1 then 2 ^ bits - 1
  else if negative then (2 ^ bits - v) % 2 ^ bits
  else v

/-! ## checkIfInputIsVailed (identical in the three tools) -/

/-- Characters searched for by the validation loop:
`DecHex ? "0123456789" : "0123456789abcdefABCDEF"`. -/
def validChars (DecHex : Bool) : List Char :=
  if DecHex then "0123456789".toList else "0123456789abcdefABCDEF".toList

/-- The `for (i = 0; i < input.length(); i++)` loop of `checkIfInputIsVailed`, with
its `uint16_t` counter `i`.  It returns the value of `i` when the loop is left, by
the loop condition or by `break`; `none` when the first argument (the number of
loop tests still allowed) is used up. -/
def checkLoop (input : List Char) (DecHex : Bool) : Nat → Nat → Option Nat
  | 0, _ => none
  | fuel + 1, i =>
    if i < input.length then
      if some i ≠ find_first_of input (validChars DecHex) i then some i
      else checkLoop input DecHex fuel (u16 (i + 1))
    else some i

/-- The step `if ((input.find_first_of("0x",0) == 0) && (!DecHex)) input.replace(0, 2, "")`
of `checkIfInputIsVailed`: the string the validation loop runs over. -/
def strippedInput (input : List Char) (DecHex : Bool) : List Char :=
  if find_first_of input "0x".toList 0 == some 0 && !DecHex then input.drop 2 else input

/-- The function `checkIfInputIsVailed(input, DecHex)`; `DecHex = true` is the
decimal mode.  The loop is given `length + 1` loop tests: a counter below `2^16`
that has not left the loop by then never leaves it (it wraps to `0` and repeats),
so `none` is exactly the non-terminating call. -/
def checkIfInputIsVailed (input : List Char) (DecHex : Bool) : Option Bool :=
  if input.length < 1 then some false
  else
    let input1 := strippedInput input DecHex
    match checkLoop input1 DecHex (input1.length + 1) 0 with
    | none => none
    | some i => if i = input1.length then some true else some false

/-! ## Command line selectors -/

/-- The address space selected by `argv[1]` of FPGA-dumpBridge: `-lw`, `-hf` or
`-mpu`. -/
inductive Space where
  | LW
  | H2F
  | MPU
  deriving DecidableEq

/-- The selector `argv[1]` of FPGA-readBridge and FPGA-writeBridge: one of the three
address spaces, or the fixed register (`-gpi` when reading, `-gpo` when writing). -/
inductive Flag where
  | lw
  | hf
  | mpu
  | gpio
  deriving DecidableEq

/-- The selector naming an address space. -/
def Space.flag : Space → Flag
  | Space.LW => Flag.lw
  | Space.H2F => Flag.hf
  | Space.MPU => Flag.mpu

/-- The alignment test shared by the three tools,
`if (addressOffset % 4 > 0) { ...; InputVailed = false; }`: the new `InputVailed`
and the value printed as the next lower address. -/
def alignCheck (InputVailed : Bool) (addressOffset : Nat) : Bool × Option Nat :=
  if addressOffset % 4 > 0 then (false, some (u32 (addressOffset - addressOffset % 4)))
  else (InputVailed, none)

/-- The range test of FPGA-readBridge and FPGA-writeBridge: three branches on
`address_space` (0: HPS2FPGA, 1: LWHPS2FPGA, else MPU). -/
def rangeCheck (InputVailed : Bool) (address_space addressOffset : Nat) : Bool :=
  if address_space = 0 then
    if addressOffset > H2F_RANGE then false else InputVailed
  else if address_space = 1 then
    if addressOffset > LWH2F_RANGE then false else InputVailed
  else
    if addressOffset > MPU_RANGE then false else InputVailed

/-- The address computation shared by FPGA-readBridge and FPGA-writeBridge:
`if (address_space < 2) address = (lwBdrige ? LWHPSFPGA_OFST : HPSFPGA_OFST) + addressOffset;
else address = addressOffset;`. -/
def bridgeAddress (address_space : Nat) (lwBdrige : Bool) (addressOffset : Nat) : Nat :=
  if address_space < 2 then u32 ((if lwBdrige then LWHPSFPGA_OFST else HPSFPGA_OFST) + addressOffset)
  else addressOffset

/-! ## FPGA-readBridge -/

/-- Variables of FPGA-readBridge set from `argv[1]`. -/
structure ReadSelect where
  address_space : Nat
  lwBdrige : Bool
  gpi_read_mode : Bool
  address : Nat
  deriving DecidableEq

/-- The selection at the start of `main` of FPGA-readBridge. -/
def readSelect : Flag → ReadSelect
  | Flag.lw => ⟨1, true, false, 0⟩
  | Flag.mpu => ⟨2, false, false, 0⟩
  | Flag.gpio => ⟨2, false, true, FPGAMAN_GPI_OFST⟩
  | Flag.hf => ⟨0, false, false, 0⟩

/-- What FPGA-readBridge has decided when it reaches `if (InputVailed)`; the memory
is opened, mapped and read only inside that `if`. -/
structure ReadRequest where
  InputVailed : Bool
  addressOffset : Nat
  address : Nat
  suggested : Option Nat
  deriving DecidableEq

/-- FPGA-readBridge after the offset has been parsed (not in GPI mode): alignment
test, range test and address computation. -/
def readResolve (flag : Flag) (addressOffset : Nat) : ReadRequest :=
  let st := readSelect flag
  let a := alignCheck true addressOffset
  let v := rangeCheck a.1 st.address_space addressOffset
  ⟨v, addressOffset, bridgeAddress st.address_space st.lwBdrige addressOffset, a.2⟩

/-- FPGA-readBridge from `argv[1]` and `argv[2]` up to `if (InputVailed)`. -/
def readMain (flag : Flag) (AddresshexString : List Char) : Option ReadRequest :=
  let st := readSelect flag
  if st.gpi_read_mode then some ⟨true, 0, st.address, none⟩
  else
    match checkIfInputIsVailed AddresshexString false with
    | none => none
    | some true => some (readResolve flag (extractUnsigned 16 32 AddresshexString))
    | some false => some ⟨false, 0, bridgeAddress st.address_space st.lwBdrige 0, none⟩

/-! ## FPGA-writeBridge -/

/-- Variables of FPGA-writeBridge set from `argv[1]`. -/
structure WriteSelect where
  address_space : Nat
  lwBdrige : Bool
  gpo_write_mode : Bool
  address : Nat
  deriving DecidableEq

/-- The selection at the start of `main` of FPGA-writeBridge: `address_space` starts
at `0` and `-lw` only sets `lwBdrige`. -/
def writeSelect : Flag → WriteSelect
  | Flag.lw => ⟨0, true, false, 0⟩
  | Flag.mpu => ⟨2, false, false, 0⟩
  | Flag.gpio => ⟨2, false, true, FPGAMAN_GPO_OFST⟩
  | Flag.hf => ⟨0, false, false, 0⟩

/-- The address input as FPGA-writeBridge has checked it. -/
structure WriteOffset where
  InputVailed : Bool
  addressOffset : Nat
  suggested : Option Nat
  deriving DecidableEq

/-- FPGA-writeBridge after the offset has been parsed: alignment and range test. -/
def writeOffsetChecks (flag : Flag) (addressOffset : Nat) : WriteOffset :=
  let a := alignCheck true addressOffset
  ⟨rangeCheck a.1 (writeSelect flag).address_space addressOffset, addressOffset, a.2⟩

/-- The block `/// Check Address Input ///` of FPGA-writeBridge. -/
def writeOffsetPhase (flag : Flag) (AddresshexString : List Char) : Option WriteOffset :=
  if (writeSelect flag).gpo_write_mode then some ⟨true, 0, none⟩
  else
    match checkIfInputIsVailed AddresshexString false with
    | none => none
    | some true => some (writeOffsetChecks flag (extractUnsigned 16 32 AddresshexString))
    | some false => some ⟨false, 0, none⟩

/-- The value input as FPGA-writeBridge has checked it. -/
structure WriteValue where
  InputVailed : Bool
  ValueInput : Nat
  BitPosValue : Nat
  SetResetBit : Nat
  deriving DecidableEq

/-- The bit position test of the binary mode: the new `InputVailed` and
`BitPosValue`. -/
def bitPosCheck (InputVailed : Bool) (BitPosString : List Char) : Option (Bool × Nat) :=
  match checkIfInputIsVailed BitPosString true with
  | none => none
  | some true =>
    let BitPosValue := extractUnsigned 10 32 BitPosString
    some (if BitPosValue > 32 then false else InputVailed, BitPosValue)
  | some false => some (false, 0)

/-- The set or reset test of the binary mode,
`if (InputVailed && checkIfInputIsVailed(SetInputString, true))`: the new
`InputVailed` and `SetResetBit`. -/
def setResetCheck (InputVailed : Bool) (SetInputString : List Char) : Option (Bool × Nat) :=
  if InputVailed then
    match checkIfInputIsVailed SetInputString true with
    | none => none
    | some true =>
      let SetResetBit := extractUnsigned 10 32 SetInputString
      some (if !(SetResetBit = 1 || SetResetBit = 0) then false else InputVailed, SetResetBit)
    | some false => some (false, 0)
  else some (false, 0)

/-- The value test of the decimal and hex modes; the value is parsed into a
`uint64_t` and then stored in the `uint32_t` `ValueInput`. -/
def valueCheck (InputVailed : Bool) (DecHexBin : Nat) (ValueString : List Char) :
    Option (Bool × Nat) :=
  match checkIfInputIsVailed ValueString (!(DecHexBin = HEX_INPUT)) with
  | none => none
  | some true =>
    let ValueInputTemp :=
      if DecHexBin = DEC_INPUT then extractUnsigned 10 64 ValueString
      else extractUnsigned 16 64 ValueString
    some (if ValueInputTemp > UINT32_MAX then false else InputVailed, u32 ValueInputTemp)
  | some false => some (false, 0)

/-- The value checks of FPGA-writeBridge, entered with the `InputVailed` left by
the address checks. -/
def writeValuePhase (InputVailed : Bool) (DecHexBin : Nat)
    (ValueString BitPosString SetInputString : List Char) : Option WriteValue :=
  if DecHexBin = BIN_INPUT then
    match bitPosCheck InputVailed BitPosString with
    | none => none
    | some p =>
      match setResetCheck p.1 SetInputString with
      | none => none
      | some q => some ⟨q.1, 0, p.2, q.2⟩
  else
    match valueCheck InputVailed DecHexBin ValueString with
    | none => none
    | some p => some ⟨p.1, p.2, 0, 0⟩

/-- What FPGA-writeBridge has decided when it reaches `if (InputVailed)`; the memory
is opened, mapped and written only inside that `if`. -/
structure WriteRequest where
  InputVailed : Bool
  addressOffset : Nat
  address : Nat
  ValueInput : Nat
  BitPosValue : Nat
  SetResetBit : Nat
  suggested : Option Nat
  deriving DecidableEq

/-- FPGA-writeBridge from the checked offset on: value checks and the address
computation, which runs for every selector. -/
def writeResolve (flag : Flag) (o : WriteOffset) (DecHexBin : Nat)
    (ValueString BitPosString SetInputString : List Char) : Option WriteRequest :=
  match writeValuePhase o.InputVailed DecHexBin ValueString BitPosString SetInputString with
  | none => none
  | some v =>
    let st := writeSelect flag
    some ⟨v.InputVailed, o.addressOffset,
      bridgeAddress st.address_space st.lwBdrige o.addressOffset,
      v.ValueInput, v.BitPosValue, v.SetResetBit, o.suggested⟩

/-- FPGA-writeBridge up to `if (InputVailed)`.  `DecHexBin`, `ValueString`,
`BitPosString` and `SetInputString` are the variables `main` fills from the
arguments after the offset. -/
def writeMain (flag : Flag) (AddresshexString : List Char) (DecHexBin : Nat)
    (ValueString BitPosString SetInputString : List Char) : Option WriteRequest :=
  match writeOffsetPhase flag AddresshexString with
  | none => none
  | some o => writeResolve flag o DecHexBin ValueString BitPosString SetInputString

/-- The statement `*ptrmap |= (1 << BitPosValue)` on a `uint32_t` register;
the shift is defined for `BitPosValue` in `[0, 31]` only. -/
def setBit (x BitPosValue : Nat) : Nat :=
  u32 (x ||| u32 (1 <<< BitPosValue))

/-- The statement `*ptrmap &= ~(1 << BitPosValue)` on a `uint32_t` register; the
complement of a 32-bit pattern `v` is `2^32 - 1 - v`. -/
def clearBit (x BitPosValue : Nat) : Nat :=
  u32 (x &&& (2 ^ 32 - 1 - u32 (1 <<< BitPosValue)))

/-- The register update of FPGA-writeBridge on the old register value. -/
def writeRegister (r : WriteRequest) (DecHexBin old : Nat) : Nat :=
  if DecHexBin = BIN_INPUT then
    if r.SetResetBit ≠ 0 then setBit old r.BitPosValue else clearBit old r.BitPosValue
  else r.ValueInput

/-! ## FPGA-dumpBridge -/

/-- What FPGA-dumpBridge has decided when it reaches `if (InputVailed)`. -/
structure DumpRequest where
  InputVailed : Bool
  addressStartOffset : Nat
  addressEndOffset : Nat
  address_start : Nat
  address_end : Nat
  suggestedStart : Option Nat
  suggestedEnd : Option Nat
  deriving DecidableEq

/-- The variable `address_space` of FPGA-dumpBridge (0: HPS2FPGA, 1: LWHPS2FPGA,
2: MPU). -/
def dumpAddressSpace : Space → Nat
  | Space.LW => 1
  | Space.MPU => 2
  | Space.H2F => 0

/-- The variable `lwBdrige` of FPGA-dumpBridge. -/
def dumpLwBdrige : Space → Bool
  | Space.LW => true
  | _ => false

/-- The range test of FPGA-dumpBridge on the `uint32_t` sum
`addressStartOffset+addressEndOffset`; its second branch is taken when that sum
is `1`. -/
def dumpRangeCheck (InputVailed : Bool) (address_space sum : Nat) : Bool :=
  if address_space = 0 then
    if sum > H2F_RANGE then false else InputVailed
  else if sum = 1 then
    if sum > LWH2F_RANGE then false else InputVailed
  else
    if sum > MPU_RANGE then false else InputVailed

/-- The computation of `address_start`, made for valid and invalid input alike. -/
def dumpAddressStart (space : Space) (addressStartOffset addressEndOffset : Nat) : Nat :=
  if dumpAddressSpace space < 2 then
    u32 ((if dumpLwBdrige space then LWHPSFPGA_OFST else HPSFPGA_OFST) + addressStartOffset)
  else u32 (addressStartOffset + addressEndOffset)

/-- FPGA-dumpBridge after both numbers have been parsed: row limit, the two
alignment tests, the range test and the address computation. -/
def dumpResolve (space : Space) (addressStartOffset addressEndOffset : Nat) : DumpRequest :=
  let v1 := if addressEndOffset > APP_MAX_ROW * 16 then false else true
  let a := alignCheck v1 addressStartOffset
  let b := alignCheck a.1 addressEndOffset
  let v := dumpRangeCheck b.1 (dumpAddressSpace space) (u32 (addressStartOffset + addressEndOffset))
  let address_start := dumpAddressStart space addressStartOffset addressEndOffset
  ⟨v, addressStartOffset, addressEndOffset, address_start, u32 (address_start + addressEndOffset),
    a.2, b.2⟩

/-- The test `checkIfInputIsVailed(AddresshexString, false) ||
checkIfInputIsVailed(AddressEndStr, false)` of FPGA-dumpBridge; the second call is
made only when the first returns false. -/
def dumpInputTest (AddresshexString AddressEndStr : List Char) : Option Bool :=
  match checkIfInputIsVailed AddresshexString false with
  | none => none
  | some true => some true
  | some false => checkIfInputIsVailed AddressEndStr false

/-- FPGA-dumpBridge from `argv[1]`, `argv[2]` and `argv[4]` up to `if (InputVailed)`. -/
def dumpMain (space : Space) (AddresshexString AddressEndStr : List Char) :
    Option DumpRequest :=
  match dumpInputTest AddresshexString AddressEndStr with
  | none => none
  | some true =>
    some (dumpResolve space (extractUnsigned 16 32 AddresshexString)
      (extractUnsigned 16 32 AddressEndStr))
  | some false =>
    let address_start := dumpAddressStart space 0 0
    some ⟨false, 0, 0, address_start, u32 (address_start + 0), none, none⟩

/-- The range limit `rangeLimit(space)` of the specification, which is the range
macro of the source for that space. -/
def rangeLimit : Space → Nat
  | Space.LW => LWH2F_RANGE
  | Space.H2F => H2F_RANGE
  | Space.MPU => MPU_RANGE

/-! ## Memory mapping and the simulated backing store -/

/-- Page size of the mappings, `MAP_SIZE 4096UL`. -/
def MAP_SIZE : Nat := 4096
/-- In-page mask, `MAP_MASK (MAP_SIZE - 1)`. -/
def MAP_MASK : Nat := MAP_SIZE - 1

/-- The mapping offset `address & ~MAP_MASK` passed to `mmap`.  The complement is
taken in 32 bits; on a 32-bit address a wider `unsigned long` gives the same value. -/
def pageBase (address : Nat) : Nat := address &&& (2 ^ 32 - 1 - MAP_MASK)

/-- The physical address behind the pointer `bridgeMap + (address & MAP_MASK)` of
FPGA-readBridge and FPGA-writeBridge, `bridgeMap` being the mapping made at
`address & ~MAP_MASK`. -/
def mappedCell (address : Nat) : Nat := pageBase address + (address &&& MAP_MASK)

/-- Simulated backing store: the 32-bit word held at each physical address. -/
abbrev Mem : Type := Nat → Nat

/-- One access of FPGA-writeBridge to the mapped register: `|=`, `&= ~` or a plain
store. -/
inductive MemOp where
  | bitSet (address BitPosValue : Nat)
  | bitClear (address BitPosValue : Nat)
  | store (address ValueInput : Nat)
  deriving DecidableEq

/-- The effect of one access on the backing store. -/
def MemOp.apply (mem : Mem) : MemOp → Mem
  | MemOp.bitSet a b => Function.update mem a (setBit (mem a) b)
  | MemOp.bitClear a b => Function.update mem a (clearBit (mem a) b)
  | MemOp.store a v => Function.update mem a v

/-- The access FPGA-writeBridge makes inside `if (InputVailed)`, once `/dev/mem` is
open and the page is mapped; none for a rejected request. -/
def writeAccess (r : WriteRequest) (DecHexBin : Nat) : Option MemOp :=
  if r.InputVailed then
    if DecHexBin = BIN_INPUT then
      if r.SetResetBit ≠ 0 then some (MemOp.bitSet (mappedCell r.address) r.BitPosValue)
      else some (MemOp.bitClear (mappedCell r.address) r.BitPosValue)
    else some (MemOp.store (mappedCell r.address) r.ValueInput)
  else none

/-- The value FPGA-readBridge reads, `*((uint32_t*)readMap)`, for an accepted
request. -/
def readAccess (r : ReadRequest) (mem : Mem) : Option Nat :=
  if r.InputVailed then some (mem (mappedCell r.address)) else none

/-! ## Argument handling of FPGA-writeBridge -/

/-- The variables `main` of FPGA-writeBridge fills from `argv`. -/
structure WriteArgs where
  flag : Flag
  AddresshexString : List Char
  DecHexBin : Nat
  ConsloeOutput : Bool
  ValueString : List Char
  BitPosString : List Char
  SetInputString : List Char
  deriving DecidableEq

/-- Ways the argument handling of FPGA-writeBridge ends: the help text, a
`std::string` built from an argument that is not there, or the filled variables. -/
inductive WriteArgResult where
  | help
  | missing
  | args (a : WriteArgs)
  deriving DecidableEq

/-- The test `(argc > n) && (std::string(argv[k]) == s)`; the argument is looked at
only when the count test holds. -/
def argIs (argv : List (List Char)) (countOk : Bool) (k : Nat) (s : String) : Bool :=
  countOk && (argv.get? k == some s.toList)

/-- The selector of FPGA-writeBridge: the outer test of `main` and the assignments
that follow it. -/
def writeFlag (argv : List (List Char)) : Option Flag :=
  let argc := argv.length
  if argIs argv (argc > 3) 1 "-lw" || argIs argv (argc > 3) 1 "-hf" ||
      argIs argv (argc > 3) 1 "-mpu" || argIs argv (argc > 1) 1 "-gpo" then
    if argv.get? 1 == some "-lw".toList then some Flag.lw
    else if argv.get? 1 == some "-mpu".toList then some Flag.mpu
    else if argv.get? 1 == some "-gpo".toList then some Flag.gpio
    else some Flag.hf
  else none

/-- The value input kind: `-h` selects hex, `-b` the bit mode, else decimal. -/
def writeDecHexBin (argv : List (List Char)) (arg_no : Nat) : Nat :=
  let argc := argv.length
  let d := if argIs argv (argc ≥ 4 - arg_no) (3 - arg_no) "-h" then HEX_INPUT else DEC_INPUT
  if argIs argv (argc > 4 - arg_no) (3 - arg_no) "-b" then BIN_INPUT else d

/-- The argument handling of FPGA-writeBridge, `main` up to the input checks. -/
def writeBridgeArgs (argv : List (List Char)) : WriteArgResult :=
  let argc := argv.length
  match writeFlag argv with
  | none => WriteArgResult.help
  | some flag =>
    let arg_no := if flag = Flag.gpio then 1 else 0
    let DecHexBin := writeDecHexBin argv arg_no
    let AddresshexString := if flag = Flag.gpio then [] else (argv.get? 2).getD []
    if DecHexBin = DEC_INPUT then
      match argv.get? (3 - arg_no) with
      | none => WriteArgResult.missing
      | some ValueString =>
        WriteArgResult.args ⟨flag, AddresshexString, DecHexBin,
          !(argIs argv (argc > 4 - arg_no) (4 - arg_no) "-b"), ValueString, [], []⟩
    else if DecHexBin = HEX_INPUT then
      match argv.get? (4 - arg_no) with
      | none => WriteArgResult.missing
      | some ValueString =>
        WriteArgResult.args ⟨flag, AddresshexString, DecHexBin,
          !(argIs argv (argc > 5 - arg_no) (5 - arg_no) "-b"), ValueString, [], []⟩
    else
      match argv.get? (5 - arg_no), argv.get? (4 - arg_no) with
      | some SetInputString, some BitPosString =>
        WriteArgResult.args ⟨flag, AddresshexString, DecHexBin,
          !(argIs argv (argc > 6 - arg_no) (6 - arg_no) "-b"), [], BitPosString, SetInputString⟩
      | _, _ => WriteArgResult.missing

/-- A run of FPGA-writeBridge on `argv` up to `if (InputVailed)`: the variables and
the request.  There is none when the help text is shown, when an argument is
missing, or when a validation loop does not end. -/
def writeBridgeRun (argv : List (List Char)) : Option (WriteArgs × WriteRequest) :=
  match writeBridgeArgs argv with
  | WriteArgResult.args a =>
    match writeMain a.flag a.AddresshexString a.DecHexBin a.ValueString a.BitPosString
        a.SetInputString with
    | some r => some (a, r)
    | none => none
  | _ => none

/-- Splitting of a command line at blanks, as the shell does for a command without
quoting; the second argument is the word being read, in reverse. -/
def shellWordsAux : List Char → List Char → List (List Char)
  | [], cur => if cur = [] then [] else [cur.reverse]
  | c :: cs, cur =>
    if c = ' ' then
      if cur = [] then shellWordsAux cs [] else cur.reverse :: shellWordsAux cs []
    else shellWordsAux cs (c :: cur)

/-- The words of a command line. -/
def shellWords (cmd : String) : List (List Char) := shellWordsAux cmd.toList []

/-! ## FPGA-reset and the reset routine of FPGA-writeConfig -/

/-- What a reset routine does, in order: console output, a `system` call, the wait. -/
inductive Action where
  | print (text : String)
  | system (cmd : String)
  | sleep (ms : Nat)
  deriving DecidableEq

/-- The `system` commands of a trace, in order. -/
def systemCalls : List Action → List String
  | [] => []
  | Action.system cmd :: rest => cmd :: systemCalls rest
  | _ :: rest => systemCalls rest

/-- The access a `system` command makes when it starts FPGA-writeBridge; none when
the command is another program or FPGA-writeBridge makes no access. -/
def commandAccess (cmd : String) : Option MemOp :=
  match shellWords cmd with
  | [] => none
  | prog :: args =>
    if prog = "FPGA-writeBridge".toList then
      match writeBridgeRun (prog :: args) with
      | some (a, r) => writeAccess r a.DecHexBin
      | none => none
    else none

/-- What a trace does to the hardware: a register access made by a command, a
command that makes no access, or the wait. -/
inductive Effect where
  | access (op : MemOp)
  | noAccess (cmd : String)
  | wait (ms : Nat)
  deriving DecidableEq

/-- The effects of a trace, in order; console output is left out. -/
def traceEffects : List Action → List Effect
  | [] => []
  | Action.print _ :: rest => traceEffects rest
  | Action.system cmd :: rest =>
    (match commandAccess cmd with
      | some op => Effect.access op
      | none => Effect.noAccess cmd) :: traceEffects rest
  | Action.sleep ms :: rest => Effect.wait ms :: traceEffects rest

/-- The backing store after the effects of a trace. -/
def runEffects (mem : Mem) : List Effect → Mem
  | [] => mem
  | Effect.access op :: rest => runEffects (op.apply mem) rest
  | _ :: rest => runEffects mem rest

/-- The C operator `!` on an integer. -/
def lnot (n : Nat) : Nat := if n = 0 then 1 else 0

/-- Reduction of an arithmetic result to a `uint8_t`. -/
def u8 (n : Nat) : Nat := n % 2 ^ 8

/-- The function `readState` of FPGA-reset (FPGA-status has a copy of its own):
`ptrFpgaManger` is the pointer value and `status` the word of the FPGA manager
status register it points to. -/
def readState (ptrFpgaManger status : Nat) : Nat :=
  if ptrFpgaManger = 0 then 0xFF
  else u8 (status &&& 0x7)

namespace FPGAreset

/-- The function `state2str` of FPGA-reset. -/
def state2str (state_code : Nat) : String :=
  match state_code with
  | 0 => "\t\t0x00 FPGA Powered Off"
  | 1 => "\t\t0x01 FPGA in Reset Phase"
  | 2 => "\t\t0x02 FPGA in Configuration Phase"
  | 3 => "\t\t0x03 FPGA in Initialization Phase.\n\t\t\t In CVP configuration, this state indicates IO configuration has completed."
  | 4 => "\t\t0x04 FPGA in User Mode"
  | 5 => "\t\t0x05 FPGA state has not yet been determined.\n\t\t\t This only occurs briefly after reset."
  | _ => "\t\t     ERROR FPGA FABRIC PHASE IS UNKNWON!"

/-- The function `performFPGAfabricClear` of FPGA-reset: its trace and its return
value.  `status` is the word of the status register when `readState()` is called
after the three commands.  The test is `!readState()==0x01`, where `!` is applied
first. -/
def performFPGAfabricClear (ConsloeOutput : Bool) (ptrFpgaManger status : Nat) :
    List Action × Bool :=
  let intro : List Action :=
    if ConsloeOutput then [Action.print "#    Performing FPGA Fabric Reset\n"] else []
  let info : List Action :=
    if ConsloeOutput then
      [Action.print ("[INFO] Pull-down nCONFIG input to the CB. This puts the FPGA in reset " ++
        "phase and restarts configuration.\n")]
    else []
  let writes : List Action :=
    intro ++ [Action.system "FPGA-writeBridge -mpu 0xFF706004 -b 0 1 -b"] ++ info ++
      [Action.system "FPGA-writeBridge -mpu 0xFF706004 -b 2 1 -b",
        Action.system "FPGA-writeBridge -mpu 0xFF706004 -b 0 0 -b"]
  if lnot (readState ptrFpgaManger status) = 0x01 then
    (writes ++ [Action.print (if ConsloeOutput then
      "\n[ERORR] After the FPGA Fabric Reset, the FPGA is not in the Reset State\n" else "-1")],
      false)
  else
    (writes ++ [Action.print (if ConsloeOutput then
      "[SUCCESS] FPGA Fabric is cleared and is in Reset State\n" else "1")], true)

/-- The function `performHPStoFPGAReset` of FPGA-reset: its trace and its return value.
In the `default` branch of the `switch` the `break` comes before `return false`, so
the function goes on and returns true for every `reset_typ`. -/
def performHPStoFPGAReset (ConsloeOutput : Bool) (reset_typ : Nat) : List Action × Bool :=
  let intro : List Action :=
    if ConsloeOutput then
      match reset_typ with
      | 1 => [Action.print "#    Performing HPS-to-FPGA Warm Reset  (h2f_rst_n = 1,0)\n"]
      | 2 => [Action.print "#    Performing HPS-to-FPGA Cold Reset  (h2f_cold_rst_n = 1,0)\n"]
      | 3 => [Action.print "#    Performing a reset on the LightWeight HPS-to-FPGA Bridge\n"]
      | 4 => [Action.print "#    Performing a reset on the HPS-to-FPGA Bridge\n"]
      | 5 => [Action.print "#    Performing a reset on the FPGA-to-HPS Bridge\n"]
      | _ => [Action.print "[ERROR]  Unkown Reset Type to perform!\n"]
    else []
  let assert : List Action :=
    if reset_typ = 1 then [Action.system "FPGA-writeBridge -mpu 0xFFD05020 -b 6 1 -b"]
    else if reset_typ = 2 then [Action.system "FPGA-writeBridge -mpu 0xFFD05020 -b 7 1 -b"]
    else if reset_typ = 3 then [Action.system "FPGA-writeBridge -mpu 0xFFD0501C -b 1 1 -b"]
    else if reset_typ = 4 then [Action.system "FPGA-writeBridge -mpu 0xFFD0501C -b 0 1 -b"]
    else if reset_typ = 5 then [Action.system "FPGA-writeBridge -mpu 0xFFD0501C -b 2 1 -b"]
    else []
  let release : List Action :=
    if reset_typ = 1 then [Action.system "FPGA-writeBridge -mpu 0xFFD05020 -b 6 0 -b"]
    else if reset_typ = 2 then [Action.system "FPGA-writeBridge -mpu 0xFFD05020 -b 7 0 -b"]
    else if reset_typ = 3 then [Action.system "FPGA-writeBridge -mpu 0xFFD0501C -b 1 0 -b"]
    else if reset_typ = 4 then [Action.system "FPGA-writeBridge -mpu 0xFFD0501C -b 0 0 -b"]
    else if reset_typ = 5 then [Action.system "FPGA-writeBridge -mpu 0xFFD0501C -b 2 0 -b"]
    else []
  let done : List Action :=
    if ConsloeOutput then [Action.print "[SUCCESS] Reset performed\n"] else [Action.print "1"]
  (intro ++ assert ++ [Action.sleep 50] ++ release ++ done, true)

end FPGAreset

namespace FPGAstatus

/-- The function `state2str` of FPGA-status. -/
def state2str (state_code : Nat) : String :=
  match state_code with
  | 0 => "\t\t0x00 FPGA Powered Off"
  | 1 => "\t\t0x01 FPGA in Reset Phase"
  | 2 => "\t\t0x02 FPGA in Configuration Phase"
  | 3 => "\t\t0x03 FPGA in Initialization Phase.\n\t\t\t In CVP configuration, this state indicates IO configuration has completed."
  | 4 => "\t\t0x04 FPGA in User Mode"
  | 5 => "\t\t0x05 FPGA state has not yet been determined.\n\t\t\t This only occurs briefly after reset."
  | _ => "\t\t     ERROR FPGA FABRIC PHASE IS UNKNWON!"

end FPGAstatus

namespace FPGAwriteConfig

/-- The function `performHPStoFPGAReset` of FPGA-writeConfig: its trace and its return value.
In the `default` branch of the `switch` the `break` comes before `return false`, so
the function goes on and returns true for every `reset_typ`. -/
def performHPStoFPGAReset (ConsloeOutput : Bool) (reset_typ : Nat) : List Action × Bool :=
  let intro : List Action :=
    if ConsloeOutput then
      match reset_typ with
      | 1 => [Action.print "#    Performing HPS-to-FPGA Warm Reset  (h2f_rst_n = 1,0)\n"]
      | 2 => [Action.print "#    Performing HPS-to-FPGA Cold Reset  (h2f_cold_rst_n = 1,0)\n"]
      | 3 => [Action.print "#    Performing a reset on the LightWeight HPS-to-FPGA Bridge\n"]
      | 4 => [Action.print "#    Performing a reset on the HPS-to-FPGA Bridge\n"]
      | 5 => [Action.print "#    Performing a reset on the FPGA-to-HPS Bridge\n"]
      | _ => [Action.print "[ERROR]  Unkown Reset Type to perform!\n"]
    else []
  let assert : List Action :=
    if reset_typ = 1 then [Action.system "FPGA-writeBridge -mpu 0xFFD05020 -b 6 1 -b"]
    else if reset_typ = 2 then [Action.system "FPGA-writeBridge -mpu 0xFFD05020 -b 7 1 -b"]
    else if reset_typ = 3 then [Action.system "FPGA-writeBridge -mpu 0xFFD0501C -b 1 1 -b"]
    else if reset_typ = 4 then [Action.system "FPGA-writeBridge -mpu 0xFFD0501C -b 0 1 -b"]
    else if reset_typ = 5 then [Action.system "FPGA-writeBridge -mpu 0xFFD0501C -b 2 1 -b"]
    else []
  let release : List Action :=
    if reset_typ = 1 then [Action.system "FPGA-writeBridge -mpu 0xFFD05020 -b 6 0 -b"]
    else if reset_typ = 2 then [Action.system "FPGA-writeBridge -mpu 0xFFD05020 -b 7 0 -b"]
    else if reset_typ = 3 then [Action.system "FPGA-writeBridge -mpu 0xFFD0501C -b 1 0 -b"]
    else if reset_typ = 4 then [Action.system "FPGA-writeBridge -mpu 0xFFD0501C -b 0 0 -b"]
    else if reset_typ = 5 then [Action.system "FPGA-writeBridge -mpu 0xFFD0501C -b 2 0 -b"]
    else []
  let done : List Action :=
    if ConsloeOutput then [Action.print "[SUCCESS] Reset performed\n"] else [Action.print "1"]
  (intro ++ assert ++ [Action.sleep 50] ++ release ++ done, true)

end FPGAwriteConfig

/-! ## The dump of FPGA-dumpBridge -/

/-- The length of the region the kernel maps for a requested `mmap` length: the
length rounded up to whole pages. -/
def pageRound (length : Nat) : Nat := (length + MAP_SIZE - 1) / MAP_SIZE * MAP_SIZE

/-- The physical address read for word `i` of a row,
`bridgeMap + ((address_curent+i) & MAP_MASK)`, `bridgeMap` being the mapping made
at `address_start & ~MAP_MASK`. -/
def dumpWordCell (address_start address_curent i : Nat) : Nat :=
  pageBase address_start + (u32 (address_curent + i) &&& MAP_MASK)

/-- The four characters a word adds to the ASCII string of its row.  Each statement
`ascii += stoul(to_string (b), nullptr, 10)` turns the byte value `b` into its
decimal text and back into the number, and appends the character with that code. -/
def asciiOfValue (value : Nat) : List Char :=
  let hi := u16 (value >>> 16)
  let lo := value &&& 0xFFFF
  [Char.ofNat ((hi &&& 0xFF00) >>> 8), Char.ofNat (hi &&& 0x00FF),
    Char.ofNat ((lo &&& 0xFF00) >>> 8), Char.ofNat (lo &&& 0x00FF)]

/-- The loop that replaces every character whose byte is below 32 or above 126 by a
blank. -/
def cleanAscii (ascii : List Char) : List Char :=
  ascii.map (fun c => if u8 c.toNat < 32 ∨ u8 c.toNat > 126 then ' ' else c)

/-- One data row of the dump. -/
structure DumpRow where
  row : Nat
  address_curent : Nat
  cells : List Nat
  values : List Nat
  ascii : List Char
  deriving DecidableEq

/-- The body of the row loop: the row address, the four words read (the inner loop
over `i = 0, 4, 8, 12`) and the ASCII string. -/
def dumpRow (mem : Mem) (address_start row : Nat) : DumpRow :=
  let address_curent := u32 (address_start + row)
  let cells := [0, 4, 8, 12].map (dumpWordCell address_start address_curent)
  let values := cells.map mem
  ⟨row, address_curent, cells, values, cleanAscii (values.flatMap asciiOfValue)⟩

/-- The loop `for (uint16_t row=0; row<=addressEndOffset; row+=16)`; the first
argument bounds the number of loop tests, and `none` means it is used up. -/
def dumpLoop (mem : Mem) (address_start addressEndOffset : Nat) : Nat → Nat → Option (List DumpRow)
  | 0, _ => none
  | fuel + 1, row =>
    if row ≤ addressEndOffset then
      match dumpLoop mem address_start addressEndOffset fuel (u16 (row + 16)) with
      | none => none
      | some rows => some (dumpRow mem address_start row :: rows)
    else some []

/-- What the dump prints after its title lines: column header blocks and data rows. -/
inductive DumpItem where
  | header (decMode : Bool)
  | data (r : DumpRow)
  deriving DecidableEq

/-- The dump of FPGA-dumpBridge for a request that has reached `if (InputVailed)`,
with `/dev/mem` open: nothing for a rejected request or when the mapping fails (a
mapping of length 0 is refused); else the header block, the rows, and the header
block once more when `addressEndOffset>100`.  The loop gets
`addressEndOffset / 16 + 2` loop tests, which it exceeds only when the `uint16_t`
counter wraps and the loop never ends. -/
def dumpOutput (mem : Mem) (decMode : Bool) (r : DumpRequest) : Option (List DumpItem) :=
  if r.InputVailed then
    if r.addressEndOffset = 0 then some []
    else
      match dumpLoop mem r.address_start r.addressEndOffset (r.addressEndOffset / 16 + 2) 0 with
      | none => none
      | some rows =>
        some ([DumpItem.header decMode] ++ rows.map DumpItem.data ++
          (if r.addressEndOffset > 100 then [DumpItem.header decMode] else []))
  else some []

/-- The number of data rows of a dump. -/
def dataRowCount : List DumpItem → Nat
  | [] => 0
  | DumpItem.data _ :: rest => dataRowCount rest + 1
  | DumpItem.header _ :: rest => dataRowCount rest

/-- Whether a header block stands immediately before data row `k` (counted from 1)
of a dump; `prev` tells whether the item before the list is a header block. -/
def headerBeforeRowAux : List DumpItem → Bool → Nat → Bool
  | [], _, _ => false
  | DumpItem.header _ :: rest, _, k => headerBeforeRowAux rest true k
  | DumpItem.data _ :: rest, prev, k =>
    if k = 1 then prev else headerBeforeRowAux rest false (k - 1)

/-- Whether a header block stands immediately before data row `k` (counted from 1). -/
def headerBeforeRow (items : List DumpItem) (k : Nat) : Bool :=
  headerBeforeRowAux items false k

/-- The four bytes of a 32-bit word, the most significant first. -/
def wordBytes (value : Nat) : List Nat :=
  [(value >>> 24) % 256, (value >>> 16) % 256, (value >>> 8) % 256, value % 256]

/-- The character the specification shows for a byte: the character with that code
for a byte in `[0x20, 0x7E]`, a blank for every other byte. -/
def glossChar (b : Nat) : Char :=
  if 0x20 ≤ b ∧ b ≤ 0x7E then Char.ofNat b else ' '

/-! ## Numerals, as the specification reads a value string -/

/-- The digits of a value string: a hex string may carry a leading `0x`. -/
def numeralDigits (base : Nat) (s : List Char) : List Char :=
  if base = 16 ∧ s.take 2 = "0x".toList then s.drop 2 else s

/-- The number a string of digits denotes in the given base. -/
def numeralValue (base : Nat) (digits : List Char) : Nat :=
  digits.foldl (fun acc c => acc * base + (digitVal base c).getD 0) 0

/-- A value string is a numeral when it is not empty and all its digits are digits
of the base. -/
def isNumeral (base : Nat) (s : List Char) : Bool :=
  !s.isEmpty && (numeralDigits base s).all (fun c => (digitVal base c).isSome)

/-- The base of a value string of FPGA-writeBridge: 16 after `-h`, else 10. -/
def valueBase (DecHexBin : Nat) : Nat := if DecHexBin = HEX_INPUT then 16 else 10

/-- The numeric value of a value string of FPGA-writeBridge. -/
def valueOf (DecHexBin : Nat) (ValueString : List Char) : Nat :=
  numeralValue (valueBase DecHexBin) (numeralDigits (valueBase DecHexBin) ValueString)

/-- The register and bit of each reset type, as the specification lists them. -/
def resetTarget (reset_typ : Nat) : Nat × Nat :=
  if reset_typ = 1 then (0xFFD05020, 6)
  else if reset_typ = 2 then (0xFFD05020, 7)
  else if reset_typ = 3 then (0xFFD0501C, 1)
  else if reset_typ = 4 then (0xFFD0501C, 0)
  else (0xFFD0501C, 2)

/-! ## Register decoding of FPGA-status -/

namespace FPGAstatus

/-- The function `msel2str` of FPGA-status. -/
def msel2str (msel_code : Nat) : String :=
  match msel_code with
  | 0 =>
    ("\t\t0x00 16-bit Passive Parallel (16PP) with Fast Power on Reset on Reset Delay;\n" ++
      "\t\t\t No AES Encryption; No Data Compression. CDRATIO must be programmed to x1")
  | 1 =>
    ("\t\t0x01 16-bit Passive Parallel (16PP) with Fast Power on Reset on Reset Delay;\n" ++
      "\t\t\t With AES Encryption; No Data Compression. CDRATIO must be programmed to x2")
  | 2 =>
    ("\t\t0x02 16-bit Passive Parallel (16PP) with Fast Power on Reset on Reset Delay;\n" ++
      "\t\t\t AES Optional; With Data Compression. CDRATIO must be programmed to x4")
  | 4 =>
    ("\t\t0x04 16-bit Passive Parallel (16PP) with Slow Power on Reset Delay;\n" ++
      "\t\t\t No AES Encryption; No Data Compression. CDRATIO must be programmed to x1")
  | 5 =>
    ("\t\t0x05 16-bit Passive Parallel (16PP) with Slow Power on Reset Delay;\n" ++
      "\t\t\t With AES Encryption; No Data Compression. CDRATIO must be programmed to x2")
  | 6 =>
    ("\t\t0x06 16-bit Passive Parallel (16PP) with Slow Power on Reset Delay;\n" ++
      "\t\t     With AES Optional; With Data Compression. CDRATIO must be programmed to x4")
  | 8 =>
    ("\t\t0x08 32-bit Passive Parallel (32PP) with Fast Power on Reset on Reset Delay;\n" ++
      "\t\t     No AES Encryption; With Data Compression. CDRATIO must be programmed to x1")
  | 9 =>
    ("\t\t0x09 32-bit Passive Parallel (32PP) with Fast Power on Reset on Reset Delay;\n" ++
      "\t\t     With AES Encryption; With Data Compression. CDRATIO must be programmed to x4")
  | 10 =>
    ("\t\t0x0a 32-bit Passive Parallel (32PP) with Fast Power on Reset on Reset Delay;\n" ++
      "\t\t     AES Optional; With Data Compression. CDRATIO must be programmed to x8")
  | 12 =>
    ("\t\t0x0c 32-bit Passive Parallel (32PP) with Slow Power on Reset on Reset Delay;\n" ++
      "\t\t     No AES Encryption; With Data Compression. CDRATIO must be programmed to x1")
  | 13 =>
    ("\t\t0x0d 32-bit Passive Parallel (32PP) with Slow Power on Reset on Reset Delay;\n" ++
      "\t\t     With AES Encryption; No Data Compression. CDRATIO must be programmed to x4")
  | 14 =>
    ("\t\t0x0e 32-bit Passive Parallel (32PP) with Slow Power on Reset on Reset Delay;\n" ++
      "\t\t     AES Optional; With Data Compression. CDRATIO must be programmed to x8")
  | _ =>
    ("\t\t     ERROR MSEL (MODE SELECT) POSITION IS UNKNWON!\n" ++
      "\t\t     ")

/-- The function `moudleEn2str` of FPGA-status; each statement `msg =msg+= "..."`
appends the text to `msg`. -/
def moudleEn2str (regitser : Nat) : String :=
  let msg0 : String :=
    (if regitser &&& (1 <<< 0) ≠ 0 then
      "\t\tL \t[Y] Enable signals from FPGA fabric to HPS SPIM0 module interface.\n"
    else
      "\t\tL \t[N] Disable signals from FPGA fabric to HPS SPIM0 module interface.\n")
  let msg1 : String :=
    msg0 ++ (if regitser &&& (1 <<< 1) ≠ 0 then
      "\t\tL \t[Y] Enable signals from FPGA fabric to HPS SPIM1 module interface.\n"
    else
      "\t\tL \t[N] Disable signals from FPGA fabric to HPS SPIM1 module interface.\n")
  let msg2 : String :=
    msg1 ++ (if regitser &&& (1 <<< 2) ≠ 0 then
      "\t\tL \t[Y] Enable signals from FPGA fabric to HPS EMAC0 module interface.\n"
    else
      "\t\tL \t[N] Disable signals from FPGA fabric to HPS EMAC0 module interface.\n")
  let msg3 : String :=
    msg2 ++ (if regitser &&& (1 <<< 3) ≠ 0 then
      "\t\tL \t[Y] Enable signals from FPGA fabric to HPS EMAC1 module interface.\n"
    else
      "\t\tL \t[N] Disable signals from FPGA fabric to HPS EMAC1 module interface.\n")
  let msg4 : String :=
    msg3 ++ (if regitser &&& (1 <<< 5) ≠ 0 then
      "\t\tL \t[Y] Enable signals from FPGA fabric to HPS SD/MMC controller module interface.\n"
    else
      "\t\tL \t[N] Disable signals from FPGA fabric to HPS SD/MMC controller module interface.\n")
  msg4

/-- The function `readState` of FPGA-status: `ptrFpgaManger` is the pointer value
and `status` the word of the FPGA manager status register it points to. -/
def readState (ptrFpgaManger status : Nat) : Nat :=
  if ptrFpgaManger = 0 then 0xFF
  else u8 (status &&& 0x7)

/-- The function `readMSEL` of FPGA-status. -/
def readMSEL (ptrFpgaManger status : Nat) : Nat :=
  if ptrFpgaManger = 0 then 0
  else u8 ((status &&& 0xF8) >>> 3)

/-- The function `hasCan` of FPGA-status; `hpsinfo` is the word of the HPS info
register. -/
def hasCan (ptrsystemManger hpsinfo : Nat) : Nat :=
  if ptrsystemManger = 0 then 255
  else u8 (hpsinfo &&& 0b01)

/-- The function `isDualCore` of FPGA-status. -/
def isDualCore (ptrsystemManger hpsinfo : Nat) : Nat :=
  if ptrsystemManger = 0 then 255
  else u8 (hpsinfo &&& 0b1)

/-- The function `readSiliconRev` of FPGA-status, a `uint16_t`; `silid` is the word
of the silicon id register. -/
def readSiliconRev (ptrsystemManger silid : Nat) : Nat :=
  if ptrsystemManger = 0 then 255
  else u16 (silid &&& 0xFFFF)

/-- The function `readSiliconID` of FPGA-status, a `uint16_t`. -/
def readSiliconID (ptrsystemManger silid : Nat) : Nat :=
  if ptrsystemManger = 0 then 255
  else u16 ((silid &&& 0xFFFF0000) >>> 16)

/-- The function `readModuleSignalEn` of FPGA-status; `moduleEn` is the word of the
module enable register. -/
def readModuleSignalEn (ptrsystemManger moduleEn : Nat) : Nat :=
  if ptrsystemManger = 0 then 255
  else u8 (moduleEn &&& 0x1F)

end FPGAstatus

/-- The bit field `extract(v, s, w) = (v >> s) & ((1 << w) - 1)` of the
specification. -/
def extract (v s w : Nat) : Nat := (v >>> s) &&& ((1 <<< w) - 1)

/-- Whether the list `sub` occurs in `s` as a run of neighbouring characters. -/
def hasInfix (sub : List Char) : List Char → Bool
  | [] => sub.isEmpty
  | c :: cs => sub.isPrefixOf (c :: cs) || hasInfix sub cs

/-- Whether a text contains another one. -/
def containsText (s sub : String) : Bool := hasInfix sub.toList s.toList

/-! ## Console output of the input checks of FPGA-readBridge and FPGA-writeBridge -/

/-- One operand written to `cout`: a text, a number shown in hex, or a number shown
in decimal. -/
inductive Out where
  | text (s : String)
  | hex (n : Nat)
  | dec (n : Int)
  deriving DecidableEq

/-- The manipulator `endl`, a line break. -/
def endl : Out := Out.text "\n"

/-- Output of the alignment test of FPGA-readBridge and FPGA-writeBridge (the same
two statements in both); it is not under `if (ConsloeOutput)`. -/
def alignOut (addressOffset : Nat) : List Out :=
  if addressOffset % 4 > 0 then
    [Out.text "[ ERROR ]  The Address 0x", Out.hex addressOffset,
      Out.text " is not not a 32-bit Address", endl,
      Out.text "           Use the next lower address: 0x",
      Out.hex (u32 (addressOffset - addressOffset % 4)), endl]
  else []

/-- A message printed under `if (ConsloeOutput)`, with its `endl`. -/
def guarded (ConsloeOutput : Bool) (message : String) : List Out :=
  if ConsloeOutput then [Out.text message, endl] else []

/-- Output of the range test of FPGA-readBridge. -/
def readRangeOut (ConsloeOutput : Bool) (address_space addressOffset : Nat) : List Out :=
  if address_space = 0 then
    if addressOffset > H2F_RANGE then
      guarded ConsloeOutput
        ("\tERROR: selected address is outside of the HPS to " ++ "FPGA AXI Bridge range!")
    else []
  else if address_space = 1 then
    if addressOffset > LWH2F_RANGE then
      guarded ConsloeOutput
        ("\tERROR: selected address is outside of" ++ "the Lightweight HPS-to-FPGA Bridge range!")
    else []
  else
    if addressOffset > MPU_RANGE then
      guarded ConsloeOutput
        ("[  ERROR  ] RROR: selected address is outside of" ++ "the HPS Address range!")
    else []

/-- Output of the input checks of FPGA-readBridge, the block under
`if(!gpi_read_mode)`. -/
def readChecksOut (flag : Flag) (ConsloeOutput : Bool) (AddresshexString : List Char) :
    Option (List Out) :=
  if (readSelect flag).gpi_read_mode then some []
  else
    match checkIfInputIsVailed AddresshexString false with
    | none => none
    | some true =>
      let addressOffset := extractUnsigned 16 32 AddresshexString
      some (alignOut addressOffset ++
        readRangeOut ConsloeOutput (readSelect flag).address_space addressOffset)
    | some false =>
      some (guarded ConsloeOutput "[  ERROR  ] Selected Value Input is a HEX Address!")

/-- Output of the `else` branch of `if (InputVailed)` in FPGA-readBridge. -/
def readRejectOut (ConsloeOutput : Bool) : List Out :=
  if !ConsloeOutput then [Out.dec (-1)]
  else
    [Out.text "[ ERROR ] User Input is wrong!", endl,
      Out.text "          FPGA-readBridge -lw|hf|mpu|gpi <Address Offset in HEX> -b|r", endl]

/-- The variables `main` of FPGA-readBridge fills from `argv`. -/
structure ReadArgs where
  flag : Flag
  AddresshexString : List Char
  ConsloeOutput : Bool
  refreshMode : Bool
  deriving DecidableEq

/-- The argument handling of FPGA-readBridge; none when the help text is shown. -/
def readBridgeArgs (argv : List (List Char)) : Option ReadArgs :=
  let argc := argv.length
  if argIs argv (argc > 2) 1 "-lw" || argIs argv (argc > 2) 1 "-hf" ||
      argIs argv (argc > 2) 1 "-mpu" || argIs argv (argc > 1) 1 "-gpi" then
    let flag :=
      if argv.get? 1 == some "-lw".toList then Flag.lw
      else if argv.get? 1 == some "-mpu".toList then Flag.mpu
      else if argv.get? 1 == some "-gpi".toList then Flag.gpio
      else Flag.hf
    let arg_no := if flag = Flag.gpio then 1 else 0
    some ⟨flag, if flag = Flag.gpio then [] else (argv.get? 2).getD [],
      !(argIs argv (argc > 3 - arg_no) (3 - arg_no) "-b"),
      argIs argv (argc > 3 - arg_no) (3 - arg_no) "-r"⟩
  else none

/-- A run of FPGA-readBridge on `argv`: whether the request is accepted, and the
console output of the input checks, followed for a rejected request by the output of
the `else` branch, which ends the run.  There is none when the help text is shown or
the validation loop does not end. -/
def readBridgeConsole (argv : List (List Char)) : Option (Bool × List Out) :=
  match readBridgeArgs argv with
  | none => none
  | some a =>
    match readMain a.flag a.AddresshexString,
      readChecksOut a.flag a.ConsloeOutput a.AddresshexString with
    | some r, some out =>
      some (r.InputVailed, out ++ (if r.InputVailed then [] else readRejectOut a.ConsloeOutput))
    | _, _ => none

/-- Output of the range test of FPGA-writeBridge. -/
def writeRangeOut (ConsloeOutput : Bool) (address_space addressOffset : Nat) : List Out :=
  if address_space = 0 then
    if addressOffset > H2F_RANGE then
      guarded ConsloeOutput
        ("[  ERROR  ] Selected Address is outside of the HPS to " ++ "FPGA AXI Bridge Range!")
    else []
  else if address_space = 1 then
    if addressOffset > LWH2F_RANGE then
      guarded ConsloeOutput
        ("[  ERROR  ] Selected Address is outside of" ++
          "the Lightweight HPS-to-FPGA Bridge Range!")
    else []
  else
    if addressOffset > MPU_RANGE then
      guarded ConsloeOutput
        ("[  ERROR  ] RROR: selected address is outside of" ++ "the HPS Address range!")
    else []

/-- Output of the block `/// Check Address Input ///` of FPGA-writeBridge. -/
def writeOffsetOut (flag : Flag) (ConsloeOutput : Bool) (AddresshexString : List Char) :
    Option (List Out) :=
  if (writeSelect flag).gpo_write_mode then some []
  else
    match checkIfInputIsVailed AddresshexString false with
    | none => none
    | some true =>
      let addressOffset := extractUnsigned 16 32 AddresshexString
      some (alignOut addressOffset ++
        writeRangeOut ConsloeOutput (writeSelect flag).address_space addressOffset)
    | some false =>
      some (guarded ConsloeOutput "[  ERROR  ]  Selected Address Input is not a HEX Address!")

/-- Output of the value checks of FPGA-writeBridge; the bit mode prints nothing. -/
def writeValueOut (ConsloeOutput : Bool) (DecHexBin : Nat) (ValueString : List Char) :
    Option (List Out) :=
  if DecHexBin = BIN_INPUT then some []
  else
    match checkIfInputIsVailed ValueString (!(DecHexBin = HEX_INPUT)) with
    | none => none
    | some true =>
      let ValueInputTemp :=
        if DecHexBin = DEC_INPUT then extractUnsigned 10 64 ValueString
        else extractUnsigned 16 64 ValueString
      if ValueInputTemp > UINT32_MAX then
        some (guarded ConsloeOutput "[  ERROR  ] Selected value greater than 32 bits")
      else some []
    | some false =>
      some (guarded ConsloeOutput "[  ERROR  ] Selected Value is Input is not vailed!")

/-- Output of the `else` branch of `if (InputVailed)` in FPGA-writeBridge. -/
def writeRejectOut (ConsloeOutput : Bool) : List Out :=
  if !ConsloeOutput then [Out.dec (-1)]
  else
    [Out.text "[ ERROR ] User Input is wrong!", endl,
      Out.text "          FPGA-writeBridge -lw|hf|mpu| <offset address in hex>", endl,
      Out.text ("                           -h|-b|<value dec> <value hex>|<bit pos> " ++
        "<bit value>  -b "), endl,
      Out.text ("          FPGA-writeBridge -gpo -h|-b|<value dec> <value hex>|<bit pos> " ++
        "<bit value>  -b"), endl]

/-- A run of FPGA-writeBridge on `argv`: whether the request is accepted, and the
console output of the input checks, followed for a rejected request by the output of
the `else` branch, which ends the run.  There is none when the help text is shown,
an argument is missing or a validation loop does not end. -/
def writeBridgeConsole (argv : List (List Char)) : Option (Bool × List Out) :=
  match writeBridgeRun argv with
  | none => none
  | some (a, r) =>
    match writeOffsetOut a.flag a.ConsloeOutput a.AddresshexString,
      writeValueOut a.ConsloeOutput a.DecHexBin a.ValueString with
    | some o1, some o2 =>
      some (r.InputVailed,
        o1 ++ o2 ++ (if r.InputVailed then [] else writeRejectOut a.ConsloeOutput))
    | _, _ => none

/-! ## The polling loop of FPGA-readBridge -/

/-- Delay of the auto refresh mode, in milliseconds. -/
def REFRECHMODE_DELAY_MS : Nat := 50
/-- Duration of the auto refresh mode, in milliseconds. -/
def REFRECHMODE_DURATION_MS : Nat := 15000
/-- `REFRECHMODE_MAX_COUNT (REFRECHMODE_DURATION_MS/REFRECHMODE_DELAY_MS)`. -/
def REFRECHMODE_MAX_COUNT : Nat := REFRECHMODE_DURATION_MS / REFRECHMODE_DELAY_MS

/-- What the polling loop does, in order: the register read, the print of the value,
the print of the refresh status with the count, the wait, and the escape codes that
move the cursor up. -/
inductive PollEvent where
  | read
  | showValue
  | status (delay_count : Nat)
  | sleep (ms : Nat)
  | cursorUp
  deriving DecidableEq

/-- The inner `do { ... } while (delay_count<REFRECHMODE_MAX_COUNT)` loop of
FPGA-readBridge, entered after the mapping is made, with its `uint16_t` counter; the
first argument bounds the number of passes, and `none` means it is used up. -/
def readPoll (refreshMode : Bool) : Nat → Nat → Option (List PollEvent)
  | 0, _ => none
  | fuel + 1, delay_count =>
    if !refreshMode then some [PollEvent.read, PollEvent.showValue]
    else
      let count := u16 (delay_count + 1)
      let pass := [PollEvent.read, PollEvent.showValue, PollEvent.status count,
        PollEvent.sleep REFRECHMODE_DELAY_MS] ++
        (if count < REFRECHMODE_MAX_COUNT then [PollEvent.cursorUp] else [])
      if count < REFRECHMODE_MAX_COUNT then
        match readPoll refreshMode fuel count with
        | none => none
        | some rest => some (pass ++ rest)
      else some pass

/-- The polling of FPGA-readBridge: the loop started with `delay_count = 0`.  A loop
that has not ended after `2^16` passes has seen a counter value twice and never
ends. -/
def readPolling (refreshMode : Bool) : Option (List PollEvent) :=
  readPoll refreshMode 65536 0

/-- The number of register reads in a polling. -/
def readCount : List PollEvent → Nat
  | [] => 0
  | PollEvent.read :: rest => readCount rest + 1
  | _ :: rest => readCount rest

/-! ## The descriptor and the mappings of FPGA-status and FPGA-reset -/

/-- The mapping variables of FPGA-status; FPGA-reset has the first one only. -/
inductive MapId where
  | fpgaMangerMap
  | systemMangerMap
  | wdt0Map
  | wdt1Map
  | clkmgrMap
  deriving DecidableEq

/-- Calls that change the open descriptor or the set of live mappings: a successful
`open`, a successful `mmap` with its length, a `munmap` with its length, `close`. -/
inductive ResEvent where
  | openFd
  | mmap (m : MapId) (length : Nat)
  | munmap (m : MapId) (length : Nat)
  | closeFd
  deriving DecidableEq

/-- Offset of the module enable register, `REG_SYSMAN_MODULE_OFFSET`. -/
def REG_SYSMAN_MODULE_OFFSET : Nat := 0x28
/-- Base address of watchdog 0. -/
def REG_WDT0_BASE : Nat := 0xFFD02000
/-- Base address of watchdog 1. -/
def REG_WDT1_BASE : Nat := 0xFFD03000
/-- Base address of the clock manager. -/
def REG_CLCK_CTRL : Nat := 0xFFD04000

/-- The mappings a `initMemRegs` makes one after the other until one fails: the
events, and whether all were made.  A successful mapping has a pointer other than
0, so the pointer tests that follow each `mmap` pass. -/
def mapAll (mapOk : MapId → Bool) : List (MapId × Nat) → List ResEvent × Bool
  | [] => ([], true)
  | (m, length) :: rest =>
    if mapOk m then
      let r := mapAll mapOk rest
      (ResEvent.mmap m length :: r.1, r.2)
    else ([], false)

namespace FPGAstatus

/-- The function `initMemRegs` of FPGA-status: the events and the return value.
`openOk` and `mapOk` tell which calls of `open` and `mmap` succeed. -/
def initMemRegs (openOk : Bool) (mapOk : MapId → Bool) : List ResEvent × Int :=
  if !openOk then ([], -1)
  else
    let r := mapAll mapOk [(MapId.fpgaMangerMap, 4),
      (MapId.systemMangerMap, REG_SYSMAN_MODULE_OFFSET + 4), (MapId.wdt0Map, 4),
      (MapId.wdt1Map, 4), (MapId.clkmgrMap, 4)]
    (ResEvent.openFd :: r.1, if r.2 then 1 else -1)

/-- The function `deinit` of FPGA-status; `notFailed` tells which mapping variables
differ from `MAP_FAILED`. -/
def deinit (notFailed : MapId → Bool) : List ResEvent :=
  (if notFailed MapId.fpgaMangerMap then [ResEvent.munmap MapId.fpgaMangerMap 4] else []) ++
  (if notFailed MapId.wdt0Map then [ResEvent.munmap MapId.wdt0Map REG_WDT0_BASE] else []) ++
  (if notFailed MapId.wdt1Map then [ResEvent.munmap MapId.wdt1Map REG_WDT1_BASE] else []) ++
  (if notFailed MapId.clkmgrMap then [ResEvent.munmap MapId.clkmgrMap REG_CLCK_CTRL] else []) ++
  [ResEvent.closeFd]

/-- The descriptor and mapping events of `main` of FPGA-status and its return
value: `if(initMemRegs()==-1) return -1;`, the report, `deinit()`. -/
def mainResources (openOk : Bool) (mapOk : MapId → Bool) : List ResEvent × Int :=
  let i := initMemRegs openOk mapOk
  if i.2 = -1 then (i.1, -1)
  else (i.1 ++ deinit mapOk, 0)

end FPGAstatus

namespace FPGAreset

/-- The function `initMemRegs` of FPGA-reset: the events and the return value. -/
def initMemRegs (openOk : Bool) (mapOk : MapId → Bool) : List ResEvent × Int :=
  if !openOk then ([], -1)
  else
    let r := mapAll mapOk [(MapId.fpgaMangerMap, 4)]
    (ResEvent.openFd :: r.1, if r.2 then 1 else -1)

/-- The function `deinit` of FPGA-reset. -/
def deinit (notFailed : MapId → Bool) : List ResEvent :=
  (if notFailed MapId.fpgaMangerMap then [ResEvent.munmap MapId.fpgaMangerMap 4] else []) ++
  [ResEvent.closeFd]

/-- The descriptor and mapping events of `main` of FPGA-reset and its return value:
`if(initMemRegs()==-1) return -1;`, the resets, `deinit()`. -/
def mainResources (openOk : Bool) (mapOk : MapId → Bool) : List ResEvent × Int :=
  let i := initMemRegs openOk mapOk
  if i.2 = -1 then (i.1, -1)
  else (i.1 ++ deinit mapOk, 0)

end FPGAreset

/-- Whether a descriptor that was opened is closed exactly once. -/
def closedOnce (events : List ResEvent) : Bool :=
  events.count ResEvent.openFd = 0 || events.count ResEvent.closeFd = 1

/-- Whether every mapping made is unmapped exactly once, with the length it was
mapped with, and with no other length. -/
def unmappedOnce (events : List ResEvent) : Bool :=
  events.all (fun e =>
    match e with
    | ResEvent.mmap m length =>
      events.count (ResEvent.munmap m length) = 1 &&
        (events.filter (fun f =>
          match f with
          | ResEvent.munmap k _ => k = m
          | _ => false)).length = 1
    | _ => true)

/-! ## Auxiliary facts -/

theorem u32_lt (n : Nat) : u32 n < 2 ^ 32 := Nat.mod_lt _ (by norm_num)

theorem u32_of_lt {n : Nat} (h : n < 2 ^ 32) : u32 n = n := Nat.mod_eq_of_lt h

theorem alignCheck_fst (v : Bool) (o : Nat) :
    (alignCheck v o).1 = (decide (o % 4 = 0) && v) := by
  unfold alignCheck
  by_cases h : o % 4 = 0
  · simp [h]
  · have : 0 < o % 4 := Nat.pos_of_ne_zero h
    simp [h, this]

theorem alignCheck_snd (v : Bool) (o : Nat) (h : o % 4 ≠ 0) :
    (alignCheck v o).2 = some (u32 (o - o % 4)) := by
  unfold alignCheck
  have : 0 < o % 4 := Nat.pos_of_ne_zero h
  simp [this]

theorem rangeCheck_false (address_space o : Nat) : rangeCheck false address_space o = false := by
  unfold rangeCheck
  split_ifs <;> rfl

theorem dumpRangeCheck_eq (v : Bool) (address_space sum : Nat) (h : sum < 2 ^ 32) :
    dumpRangeCheck v address_space sum =
      (v && (decide (address_space ≠ 0) || decide (sum ≤ H2F_RANGE))) := by
  unfold dumpRangeCheck
  have h1 : ¬ (sum > MPU_RANGE) := by
    simp only [MPU_RANGE, MPU_END, MPU_OFSET]; omega
  by_cases ha : address_space = 0
  · by_cases hs : sum ≤ H2F_RANGE
    · simp [ha, hs]
    · simp [ha, hs]
  · by_cases hs1 : sum = 1
    · have : ¬ (sum > LWH2F_RANGE) := by
        simp only [LWH2F_RANGE, LWHPSFPGA_END, LWHPSFPGA_OFST]; omega
      simp [ha, hs1, this]
      intro _; decide
    · simp [ha, hs1, h1]

/-- The acceptance test of FPGA-dumpBridge as the code makes it: the range of the
sum is tested for the HPS2FPGA bridge only, on the wrapped sum. -/
theorem dumpResolve_InputVailed (space : Space) (o l : Nat) :
    (dumpResolve space o l).InputVailed = true ↔
      l ≤ APP_MAX_ROW * 16 ∧ o % 4 = 0 ∧ l % 4 = 0 ∧
        (space = Space.H2F → u32 (o + l) ≤ H2F_RANGE) := by
  simp only [dumpResolve, alignCheck_fst, dumpRangeCheck_eq _ _ _ (u32_lt _)]
  cases space <;> simp [dumpAddressSpace] <;> tauto

theorem findFrom_le (set : List Char) : ∀ (l : List Char) (k j : Nat),
    findFrom set l k = some j → k ≤ j := by
  intro l
  induction l with
  | nil => intro k j h; simp [findFrom] at h
  | cons c cs ih =>
    intro k j h
    unfold findFrom at h
    by_cases hc : set.contains c = true
    · rw [if_pos hc] at h
      cases h
      exact Nat.le_refl _
    · rw [if_neg hc] at h
      have := ih (k + 1) j h
      omega

theorem find_first_of_self_iff (input set : List Char) (i : Nat) (hi : i < input.length) :
    some i = find_first_of input set i ↔ set.contains input[i] = true := by
  unfold find_first_of
  rw [List.drop_eq_getElem_cons hi]
  unfold findFrom
  by_cases hc : set.contains input[i] = true
  · rw [if_pos hc]
    exact ⟨fun _ => hc, fun _ => rfl⟩
  · rw [if_neg hc]
    constructor
    · intro h
      have := findFrom_le set _ _ _ h.symm
      omega
    · intro h
      exact absurd h hc

theorem checkLoop_eq (input : List Char) (d : Bool) (hlen : input.length < 65536) :
    ∀ fuel i, i ≤ input.length → input.length < i + fuel →
      checkLoop input d fuel i =
        some (i + ((input.drop i).takeWhile (validChars d).contains).length) := by
  intro fuel
  induction fuel with
  | zero => intro i h1 h2; omega
  | succ n ih =>
    intro i h1 h2
    unfold checkLoop
    by_cases hi : i < input.length
    · rw [if_pos hi]
      have hd : input.drop i = input[i] :: input.drop (i + 1) :=
        List.drop_eq_getElem_cons hi
      by_cases hc : (validChars d).contains input[i] = true
      · have hb : ¬ (some i ≠ find_first_of input (validChars d) i) := by
          rw [ne_eq, not_not]
          exact (find_first_of_self_iff input _ i hi).2 hc
        rw [if_neg hb]
        have hu : u16 (i + 1) = i + 1 := Nat.mod_eq_of_lt (by omega)
        rw [hu, ih (i + 1) (by omega) (by omega), hd, List.takeWhile_cons_of_pos hc]
        simp only [List.length_cons]
        congr 1
        omega
      · have hb : some i ≠ find_first_of input (validChars d) i := by
          intro h
          exact hc ((find_first_of_self_iff input _ i hi).1 h)
        rw [if_pos hb, hd, List.takeWhile_cons_of_neg hc]
        simp
    · rw [if_neg hi]
      have : input.drop i = [] := List.drop_eq_nil_of_le (by omega)
      rw [this]
      simp

theorem takeWhile_length_eq_iff (p : Char → Bool) (l : List Char) :
    (l.takeWhile p).length = l.length ↔ ∀ c ∈ l, p c = true := by
  induction l with
  | nil => simp
  | cons c cs ih =>
    by_cases hc : p c = true
    · rw [List.takeWhile_cons_of_pos hc]
      simp [ih, hc]
    · rw [List.takeWhile_cons_of_neg hc]
      simp [hc]

/-- In hex mode the first two characters are removed exactly when the first
character is `0` or `x`, whatever the second one is. -/
theorem strippedInput_hex_cons (c : Char) (cs : List Char) :
    strippedInput (c :: cs) false = if c = '0' ∨ c = 'x' then cs.drop 1 else c :: cs := by
  unfold strippedInput find_first_of
  simp only [List.drop_zero, findFrom]
  by_cases hc : c = '0' ∨ c = 'x'
  · rcases hc with hc | hc <;> subst hc <;> simp
  · rw [if_neg hc]
    have : ("0x".toList).contains c = false := by
      simp only [not_or] at hc
      simp [hc.1, hc.2]
    have h2 : findFrom "0x".toList cs (0 + 1) ≠ some 0 := by
      intro h
      have := findFrom_le _ _ _ _ h
      omega
    have h3 : (findFrom "0x".toList cs (0 + 1) == some 0) = false := beq_false_of_ne h2
    simp only [this, h3, Bool.false_eq_true, if_false, Bool.false_and]

/-- What `checkIfInputIsVailed` computes on a string shorter than `2^16`: the string
is not empty and every character the loop runs over is an admitted one. -/
theorem checkIfInputIsVailed_eq (s : List Char) (d : Bool) (h : s.length < 65536) :
    checkIfInputIsVailed s d =
      some (decide (s ≠ [] ∧ ∀ c ∈ strippedInput s d, (validChars d).contains c = true)) := by
  unfold checkIfInputIsVailed
  by_cases h0 : s.length < 1
  · rw [if_pos h0]
    have : s = [] := List.length_eq_zero.1 (by omega)
    simp [this]
  · rw [if_neg h0]
    have hne : s ≠ [] := by
      intro hs; rw [hs] at h0; simp at h0
    simp only
    change (match checkLoop (strippedInput s d) d ((strippedInput s d).length + 1) 0 with
      | none => none
      | some i => if i = (strippedInput s d).length then some true else some false) = _
    have hl : (strippedInput s d).length < 65536 := by
      unfold strippedInput
      split_ifs
      · rw [List.length_drop]; omega
      · exact h
    rw [checkLoop_eq _ d hl _ 0 (Nat.zero_le _) (by omega)]
    simp only [List.drop_zero, Nat.zero_add]
    by_cases hall : ∀ c ∈ strippedInput s d, (validChars d).contains c = true
    · have := (takeWhile_length_eq_iff _ _).2 hall
      simp [this, hne, hall]
      intro c hc
      have := hall c hc
      simpa using this
    · have : ¬ ((strippedInput s d).takeWhile (validChars d).contains).length
          = (strippedInput s d).length := fun h => hall ((takeWhile_length_eq_iff _ _).1 h)
      simp [this, hne]
      push_neg at hall
      obtain ⟨c, hc, hcn⟩ := hall
      exact ⟨c, hc, by simpa using hcn⟩

/-- A call of `checkIfInputIsVailed` on a string shorter than `2^16` returns. -/
theorem checkIfInputIsVailed_some (s : List Char) (d : Bool) (h : s.length < 65536) :
    ∃ b, checkIfInputIsVailed s d = some b :=
  ⟨_, checkIfInputIsVailed_eq s d h⟩

/-- A value extracted into an unsigned integer of `bits` bits fits in it. -/
theorem extractUnsigned_lt (base bits : Nat) (s : List Char) :
    extractUnsigned base bits s < 2 ^ bits := by
  have hp : 0 < 2 ^ bits := Nat.two_pow_pos bits
  unfold extractUnsigned
  simp only
  generalize accumDigits base _ 0 = v
  by_cases hv : v > 2 ^ bits - 1
  · rw [if_pos hv]; omega
  · rw [if_neg hv]
    split_ifs
    · exact Nat.mod_lt _ hp
    · omega

/-- With a valid offset string FPGA-readBridge resolves the parsed offset. -/
theorem readMain_of_valid (space : Space) (s : List Char)
    (h : checkIfInputIsVailed s false = some true) :
    readMain space.flag s = some (readResolve space.flag (extractUnsigned 16 32 s)) := by
  unfold readMain
  rw [h]
  cases space <;> rfl

/-- With a valid offset string FPGA-writeBridge resolves the parsed offset. -/
theorem writeMain_of_valid (space : Space) (s : List Char) (D : Nat) (V B S : List Char)
    (h : checkIfInputIsVailed s false = some true) :
    writeMain space.flag s D V B S =
      writeResolve space.flag (writeOffsetChecks space.flag (extractUnsigned 16 32 s)) D V B S := by
  unfold writeMain writeOffsetPhase
  rw [h]
  cases space <;> rfl

/-- When its input test passes FPGA-dumpBridge resolves the two parsed numbers. -/
theorem dumpMain_of_valid (space : Space) (a b : List Char)
    (h : dumpInputTest a b = some true) :
    dumpMain space a b =
      some (dumpResolve space (extractUnsigned 16 32 a) (extractUnsigned 16 32 b)) := by
  unfold dumpMain
  rw [h]

theorem bitPosCheck_some (iv : Bool) (B : List Char) (hB : B.length < 65536) :
    ∃ p, bitPosCheck iv B = some p ∧ (iv = false → p.1 = false) := by
  obtain ⟨b, hb⟩ := checkIfInputIsVailed_some B true hB
  unfold bitPosCheck
  rw [hb]
  cases b
  · exact ⟨_, rfl, fun _ => rfl⟩
  · refine ⟨_, rfl, ?_⟩
    intro h
    subst h
    simp

theorem setResetCheck_some (iv : Bool) (S : List Char) (hS : S.length < 65536) :
    ∃ q, setResetCheck iv S = some q ∧ (iv = false → q.1 = false) := by
  obtain ⟨b, hb⟩ := checkIfInputIsVailed_some S true hS
  unfold setResetCheck
  cases iv
  · exact ⟨_, rfl, fun _ => rfl⟩
  · rw [if_pos rfl, hb]
    cases b
    · exact ⟨_, rfl, fun h => by cases h⟩
    · exact ⟨_, rfl, fun h => by cases h⟩

theorem valueCheck_some (iv : Bool) (D : Nat) (V : List Char) (hV : V.length < 65536) :
    ∃ p, valueCheck iv D V = some p ∧ (iv = false → p.1 = false) := by
  obtain ⟨b, hb⟩ := checkIfInputIsVailed_some V (!(decide (D = HEX_INPUT))) hV
  unfold valueCheck
  rw [hb]
  cases b
  · exact ⟨_, rfl, fun _ => rfl⟩
  · refine ⟨_, rfl, ?_⟩
    intro h
    subst h
    simp

/-- The value checks of FPGA-writeBridge return on short strings, and never turn a
rejected request into an accepted one. -/
theorem writeValuePhase_some (iv : Bool) (D : Nat) (V B S : List Char)
    (hV : V.length < 65536) (hB : B.length < 65536) (hS : S.length < 65536) :
    ∃ v, writeValuePhase iv D V B S = some v ∧ (iv = false → v.InputVailed = false) := by
  unfold writeValuePhase
  by_cases hD : D = BIN_INPUT
  · rw [if_pos hD]
    obtain ⟨p, hp, hp1⟩ := bitPosCheck_some iv B hB
    obtain ⟨q, hq, hq1⟩ := setResetCheck_some p.1 S hS
    rw [hp]
    simp only
    rw [hq]
    exact ⟨_, rfl, fun h => hq1 (hp1 h)⟩
  · rw [if_neg hD]
    obtain ⟨p, hp, hp1⟩ := valueCheck_some iv D V hV
    rw [hp]
    exact ⟨_, rfl, hp1⟩

theorem writeResolve_some (flag : Flag) (o : WriteOffset) (D : Nat) (V B S : List Char)
    (hV : V.length < 65536) (hB : B.length < 65536) (hS : S.length < 65536) :
    ∃ w, writeResolve flag o D V B S = some w ∧
      w.address = bridgeAddress (writeSelect flag).address_space (writeSelect flag).lwBdrige
        o.addressOffset ∧
      w.addressOffset = o.addressOffset ∧ w.suggested = o.suggested ∧
      (o.InputVailed = false → w.InputVailed = false) := by
  obtain ⟨v, hv, hv1⟩ := writeValuePhase_some o.InputVailed D V B S hV hB hS
  unfold writeResolve
  rw [hv]
  exact ⟨_, rfl, rfl, rfl, rfl, hv1⟩

theorem setBit_clearBit_testBit (x b i : Nat) (hx : x < 2 ^ 32) (hb : b < 32) :
    (clearBit (setBit x b) b).testBit i = (decide (i ≠ b) && x.testBit i) := by
  have h1 : (1 : Nat) <<< b = 2 ^ b := by simp [Nat.shiftLeft_eq]
  have h2 : 2 ^ b < 2 ^ 32 := Nat.pow_lt_pow_right (by norm_num) hb
  unfold clearBit setBit
  rw [h1, u32_of_lt h2]
  have h3 : 2 ^ 32 - 1 - 2 ^ b = 2 ^ 32 - (2 ^ b + 1) := by omega
  rw [h3]
  unfold u32
  simp only [Nat.testBit_mod_two_pow, Nat.testBit_and, Nat.testBit_or,
    Nat.testBit_two_pow_sub_succ h2, Nat.testBit_two_pow]
  by_cases hi : i < 32
  · by_cases hib : b = i
    · simp [hi, hib]
    · have : i ≠ b := fun h => hib h.symm
      simp [hi, hib, this]
  · have : x.testBit i = false :=
      Nat.testBit_lt_two_pow
        (lt_of_lt_of_le hx (Nat.pow_le_pow_right (by norm_num) (by omega)))
    simp [hi, this]

/-! ## Claims on address resolution, validation and bit access -/

/-- C1 (as stated, refuted): the claimed condition `offset % 4 == 0`,
`offset + length <= rangeLimit`, `length <= 4800` is not equivalent to acceptance.
For H2F, offset 0 and length 2 the condition holds and FPGA-dumpBridge rejects the
request, the length being no multiple of 4.  For LW, offset 0x200000 and length 0,
and for H2F, offset 0xFFFFFFFC and length 4 (a sum that wraps to 0), the condition
fails and the request is accepted. -/
theorem dump_accept_iff_refuted :
    rangeLimit Space.LW = 0x1FFFFF ∧ rangeLimit Space.H2F = 0x3BFFFFFF ∧
    ¬ ((dumpResolve Space.H2F 0 2).InputVailed = true ↔
      (0 % 4 = 0 ∧ 0 + 2 ≤ rangeLimit Space.H2F ∧ 2 ≤ 4800)) ∧
    ¬ ((dumpResolve Space.LW 0x200000 0).InputVailed = true ↔
      (0x200000 % 4 = 0 ∧ 0x200000 + 0 ≤ rangeLimit Space.LW ∧ 0 ≤ 4800)) ∧
    ¬ ((dumpResolve Space.H2F 0xFFFFFFFC 4).InputVailed = true ↔
      (0xFFFFFFFC % 4 = 0 ∧ 0xFFFFFFFC + 4 ≤ rangeLimit Space.H2F ∧ 4 ≤ 4800)) := by
  decide

/-- C1 (amended): in FPGA-dumpBridge, for every address space and every 32-bit offset
and length, a request with `offset % 4 == 0`, `length % 4 == 0`,
`offset + length <= rangeLimit(space)` (true sum) and `length <= 4800` is accepted;
and every accepted request has `offset % 4 == 0`, `length % 4 == 0` and
`length <= 4800`, and for the H2F and MPU spaces, when the true sum fits in 32 bits,
`offset + length <= rangeLimit(space)`. -/
theorem dump_accept_amended (space : Space) (offset length : Nat)
    (_ : offset < 2 ^ 32) (_ : length < 2 ^ 32) :
    (rangeLimit Space.LW = 0x1FFFFF ∧ rangeLimit Space.H2F = 0x3BFFFFFF ∧
      rangeLimit Space.MPU = 0xFFFFFFFF) ∧
    (offset % 4 = 0 ∧ length % 4 = 0 ∧ offset + length ≤ rangeLimit space ∧ length ≤ 4800 →
      (dumpResolve space offset length).InputVailed = true) ∧
    ((dumpResolve space offset length).InputVailed = true →
      offset % 4 = 0 ∧ length % 4 = 0 ∧ length ≤ 4800 ∧
      (space ≠ Space.LW → offset + length < 2 ^ 32 → offset + length ≤ rangeLimit space)) := by
  refine ⟨by decide, ?_⟩
  rw [dumpResolve_InputVailed]
  have hA : APP_MAX_ROW * 16 = 4800 := by decide
  have hH : H2F_RANGE = 0x3BFFFFFF := by decide
  have hM : MPU_RANGE = 0xFFFFFFFF := by decide
  rw [hA, hH]
  constructor
  · rintro ⟨h1, h2, h3, h4⟩
    refine ⟨h4, h1, h2, ?_⟩
    intro hs
    subst hs
    have hr : rangeLimit Space.H2F = 0x3BFFFFFF := by decide
    rw [hr] at h3
    rw [u32_of_lt (by omega)]
    exact h3
  · rintro ⟨h1, h2, h3, h4⟩
    refine ⟨h2, h3, h1, ?_⟩
    intro hs hsum
    cases space
    · exact absurd rfl hs
    · have h5 := h4 rfl
      rw [u32_of_lt hsum] at h5
      exact h5
    · show offset + length ≤ MPU_RANGE
      rw [hM]; omega

/-- Witness of C1 (amended): the H2F request with offset 0xA0 and length 0x10 is
accepted. -/
theorem dump_accept_amended_witness :
    (0xA0 : Nat) < 2 ^ 32 ∧ (0x10 : Nat) < 2 ^ 32 ∧
    (dumpResolve Space.H2F 0xA0 0x10).InputVailed = true :=
  ⟨by decide, by decide,
    (dump_accept_amended Space.H2F 0xA0 0x10 (by decide) (by decide)).2.1
      ⟨by decide, by decide, by decide, by decide⟩⟩

/-- C2 (evaluation at the failing input): the MPU dump request with offset string
"0" and length string "10" is accepted, and its `address_start` is 0x10, the offset
plus the length, not the offset 0. -/
theorem dump_mpu_address_start_adds_length :
    dumpMain Space.MPU "0".toList "10".toList =
      some ⟨true, 0, 0x10, 0x10, 0x20, none, none⟩ := by
  decide

/-- C3: in FPGA-readBridge and FPGA-writeBridge, for every space selector and parsed
offset the address is `0xFF200000 + offset` for `-lw` and `0xC0000000 + offset` for
`-hf`, both modulo `2^32`, and the offset itself for `-mpu`; FPGA-writeBridge reaches
its `if (InputVailed)` with the same address as FPGA-readBridge. -/
theorem bridge_address_read_write (space : Space) (offset DecHexBin : Nat)
    (ValueString BitPosString SetInputString : List Char)
    (ho : offset < 2 ^ 32) (hV : ValueString.length < 65536)
    (hB : BitPosString.length < 65536) (hS : SetInputString.length < 65536) :
    (readResolve space.flag offset).address =
      (match space with
        | Space.LW => (0xFF200000 + offset) % 2 ^ 32
        | Space.H2F => (0xC0000000 + offset) % 2 ^ 32
        | Space.MPU => offset) ∧
    (readResolve space.flag offset).address < 2 ^ 32 ∧
    ∃ w, writeResolve space.flag (writeOffsetChecks space.flag offset) DecHexBin
        ValueString BitPosString SetInputString = some w ∧
      w.address = (readResolve space.flag offset).address := by
  obtain ⟨w, hw, ha, -⟩ := writeResolve_some space.flag (writeOffsetChecks space.flag offset)
    DecHexBin ValueString BitPosString SetInputString hV hB hS
  refine ⟨?_, ?_, w, hw, ?_⟩
  · cases space <;> rfl
  · cases space
    · exact u32_lt _
    · exact u32_lt _
    · exact ho
  · rw [ha]
    cases space <;> rfl

/-- Witness of C3: `-lw` with offset 0xA0 and the decimal value "1". -/
theorem bridge_address_read_write_witness :
    (readResolve Flag.lw 0xA0).address = 0xFF2000A0 ∧
    (readResolve Flag.lw 0xA0).address < 2 ^ 32 ∧
    ∃ w, writeResolve Flag.lw (writeOffsetChecks Flag.lw 0xA0) DEC_INPUT
        "1".toList [] [] = some w ∧
      w.address = (readResolve Flag.lw 0xA0).address :=
  bridge_address_read_write Space.LW 0xA0 DEC_INPUT "1".toList [] []
    (by decide) (by decide) (by decide) (by decide)

/-- C4: in readBridge, writeBridge and dumpBridge every parsed offset with
`offset % 4 != 0` is rejected (`InputVailed` is false when `if (InputVailed)` is
reached) and the suggested value is `offset - (offset % 4)`, a multiple of 4 with
`offset - 3 <= suggestion < offset`; the offset string "A1" is rejected with the
suggestion 0xA0. -/
theorem misaligned_offset_rejected (flag : Flag) (space : Space)
    (offset length DecHexBin : Nat) (ValueString BitPosString SetInputString : List Char)
    (ho : offset < 2 ^ 32) (hmis : offset % 4 ≠ 0) (hV : ValueString.length < 65536)
    (hB : BitPosString.length < 65536) (hS : SetInputString.length < 65536) :
    ((readResolve flag offset).InputVailed = false ∧
      (readResolve flag offset).suggested = some (offset - offset % 4)) ∧
    (∃ w, writeResolve flag (writeOffsetChecks flag offset) DecHexBin
        ValueString BitPosString SetInputString = some w ∧
      w.InputVailed = false ∧ w.suggested = some (offset - offset % 4)) ∧
    ((dumpResolve space offset length).InputVailed = false ∧
      (dumpResolve space offset length).suggestedStart = some (offset - offset % 4)) ∧
    ((offset - offset % 4) % 4 = 0 ∧ offset - 3 ≤ offset - offset % 4 ∧
      offset - offset % 4 < offset) ∧
    (readMain Flag.lw "A1".toList = some ⟨false, 0xA1, 0xFF2000A1, some 0xA0⟩ ∧
      writeMain Flag.lw "A1".toList DEC_INPUT "1".toList [] [] =
        some ⟨false, 0xA1, 0xFF2000A1, 1, 0, 0, some 0xA0⟩ ∧
      dumpMain Space.LW "A1".toList "10".toList =
        some ⟨false, 0xA1, 0x10, 0xFF2000A1, 0xFF2000B1, some 0xA0, none⟩) := by
  have hu : u32 (offset - offset % 4) = offset - offset % 4 := u32_of_lt (by omega)
  have hfst : ∀ v, (alignCheck v offset).1 = false := by
    intro v
    rw [alignCheck_fst]
    simp [hmis]
  have hsnd : ∀ v, (alignCheck v offset).2 = some (offset - offset % 4) := by
    intro v
    rw [alignCheck_snd v offset hmis, hu]
  refine ⟨⟨?_, ?_⟩, ?_, ⟨?_, ?_⟩, ⟨?_, ?_, ?_⟩, by decide⟩
  · show rangeCheck (alignCheck true offset).1 _ offset = false
    rw [hfst, rangeCheck_false]
  · exact hsnd true
  · have hiv : (writeOffsetChecks flag offset).InputVailed = false := by
      show rangeCheck (alignCheck true offset).1 _ offset = false
      rw [hfst, rangeCheck_false]
    obtain ⟨w, hw, -, -, hs, hf⟩ := writeResolve_some flag (writeOffsetChecks flag offset)
      DecHexBin ValueString BitPosString SetInputString hV hB hS
    exact ⟨w, hw, hf hiv, hs.trans (hsnd true)⟩
  · cases hacc : (dumpResolve space offset length).InputVailed
    · rfl
    · exact absurd ((dumpResolve_InputVailed space offset length).1 hacc).2.1 hmis
  · exact hsnd _
  · omega
  · omega
  · omega

/-- Witness of C4: offset 0xA1 is rejected by the three tools with the suggestion
0xA0. -/
theorem misaligned_offset_rejected_witness :
    ((readResolve Flag.hf 0xA1).InputVailed = false ∧
      (readResolve Flag.hf 0xA1).suggested = some 0xA0) ∧
    (∃ w, writeResolve Flag.hf (writeOffsetChecks Flag.hf 0xA1) BIN_INPUT
        [] "3".toList "1".toList = some w ∧
      w.InputVailed = false ∧ w.suggested = some 0xA0) ∧
    ((dumpResolve Space.H2F 0xA1 0x10).InputVailed = false ∧
      (dumpResolve Space.H2F 0xA1 0x10).suggestedStart = some 0xA0) :=
  have h := misaligned_offset_rejected Flag.hf Space.H2F 0xA1 0x10 BIN_INPUT
    [] "3".toList "1".toList (by decide) (by decide) (by decide) (by decide) (by decide)
  ⟨h.1, h.2.1, h.2.2.1⟩

/-- C5: for the dump request with space LW, offset string "A0" and length string
"10", both strings pass the validation, the parsed offset is 0xA0 and aligned, the
request is accepted, `address_start` is 0xFF2000A0 and `address_end` is 0xFF2000B0. -/
theorem dump_lw_A0_10 :
    checkIfInputIsVailed "A0".toList false = some true ∧
    checkIfInputIsVailed "10".toList false = some true ∧
    extractUnsigned 16 32 "A0".toList = 0xA0 ∧ 0xA0 % 4 = 0 ∧
    dumpMain Space.LW "A0".toList "10".toList =
      some ⟨true, 0xA0, 0x10, 0xFF2000A0, 0xFF2000B0, none, none⟩ := by
  decide

/-- C6 (evaluation at the failing input): in hex mode the string "0g" is reported
valid, although its character `g` is outside `0-9a-fA-F` and the string does not
start with "0x"; so are "xg" and "x". -/
theorem checkIfInputIsVailed_accepts_0g :
    checkIfInputIsVailed "0g".toList false = some true ∧
    checkIfInputIsVailed "xg".toList false = some true ∧
    checkIfInputIsVailed "x".toList false = some true := by
  decide

/-- C7 (evaluation at the failing input): the offset string "zz" fails the hex
validation, yet FPGA-dumpBridge with `-hf`, offset "zz" and length "10" parses the
strings and accepts the request. -/
theorem dump_accepts_invalid_offset_string :
    checkIfInputIsVailed "zz".toList false = some false ∧
    dumpMain Space.H2F "zz".toList "10".toList =
      some ⟨true, 0, 0x10, 0xC0000000, 0xC0000010, none, none⟩ := by
  decide

/-- C8 (evaluation at the failing input): FPGA-writeBridge with `-lw`, offset
"200000" and decimal value "1" accepts the request, although the offset 0x200000
exceeds the lightweight range 0x1FFFFF; the address 0xFF400000 lies above
0xFF3FFFFF. -/
theorem write_lw_accepts_offset_above_range :
    LWH2F_RANGE = 0x1FFFFF ∧ 0x200000 > LWH2F_RANGE ∧
    writeMain Flag.lw "200000".toList DEC_INPUT "1".toList [] [] =
      some ⟨true, 0x200000, 0xFF400000, 1, 0, 0, none⟩ ∧
    0xFF400000 > LWHPSFPGA_END := by
  decide

/-- C9 (evaluation at the failing input): FPGA-writeBridge in bit mode with bit
position "32" and bit value "1" accepts the request with `BitPosValue = 32`, so the
shift `1 << BitPosValue` is reached with a position outside `[0, 31]`. -/
theorem write_accepts_bit_position_32 :
    writeMain Flag.hf "0".toList BIN_INPUT [] "32".toList "1".toList =
      some ⟨true, 0, 0xC0000000, 0, 32, 1, none⟩ := by
  decide

/-- C10: for every 32-bit word `x` and bit `b` in `[0, 31]`, the set operation
followed by the clear operation of FPGA-writeBridge, modulo `2^32`, gives a 32-bit
word whose bit `b` is 0 and whose other bits are those of `x`. -/
theorem clearBit_setBit (x b : Nat) (hx : x < 2 ^ 32) (hb : b < 32) :
    clearBit (setBit x b) b < 2 ^ 32 ∧
    (clearBit (setBit x b) b).testBit b = false ∧
    ∀ i, i ≠ b → (clearBit (setBit x b) b).testBit i = x.testBit i := by
  refine ⟨u32_lt _, ?_, ?_⟩
  · rw [setBit_clearBit_testBit x b b hx hb]
    simp
  · intro i hi
    rw [setBit_clearBit_testBit x b i hx hb]
    simp [hi]

/-- Witness of C10: the word 0x12345678 and bit 31. -/
theorem clearBit_setBit_witness :
    clearBit (setBit 0x12345678 31) 31 < 2 ^ 32 ∧
    (clearBit (setBit 0x12345678 31) 31).testBit 31 = false ∧
    ∀ i, i ≠ 31 → (clearBit (setBit 0x12345678 31) 31).testBit i
      = (0x12345678 : Nat).testBit i :=
  clearBit_setBit 0x12345678 31 (by decide) (by decide)

/-! ## Mapping, backing store and reset sequences -/

theorem pageBase_eq (A : Nat) (hA : A < 2 ^ 32) : pageBase A = A / 4096 * 4096 := by
  unfold pageBase MAP_MASK MAP_SIZE
  apply Nat.eq_of_testBit_eq
  intro i
  have h1 : (2 : Nat) ^ 32 - 1 - (4096 - 1) = 2 ^ 32 - (4095 + 1) := by norm_num
  have h2 : (4095 : Nat) = 2 ^ 12 - 1 := by norm_num
  have h3 : A / 4096 * 4096 = (A >>> 12) <<< 12 := by
    rw [Nat.shiftRight_eq_div_pow, Nat.shiftLeft_eq]
  rw [h1, h3, Nat.testBit_and, Nat.testBit_two_pow_sub_succ (by norm_num), h2,
    Nat.testBit_two_pow_sub_one, Nat.testBit_shiftLeft, Nat.testBit_shiftRight]
  by_cases hi : i < 12
  · have : ¬ (i ≥ 12) := by omega
    simp [hi, this]
  · have h12 : i ≥ 12 := by omega
    have hidx : 12 + (i - 12) = i := by omega
    by_cases h32 : i < 32
    · simp [hi, h12, h32, hidx]
    · have : A.testBit i = false :=
        Nat.testBit_lt_two_pow
          (lt_of_lt_of_le hA (Nat.pow_le_pow_right (by norm_num) (by omega)))
      simp [hi, h12, h32, hidx, this]

theorem and_MAP_MASK (A : Nat) : A &&& MAP_MASK = A % 4096 := by
  have h : MAP_MASK = 2 ^ 12 - 1 := by decide
  rw [h, Nat.and_pow_two_sub_one_eq_mod]

/-- The page base and the in-page offset of a 32-bit address add up to it. -/
theorem mappedCell_eq (A : Nat) (hA : A < 2 ^ 32) : mappedCell A = A := by
  unfold mappedCell
  rw [pageBase_eq A hA, and_MAP_MASK]
  exact Nat.div_add_mod' A 4096

theorem setBit_lt (x b : Nat) : setBit x b < 2 ^ 32 := u32_lt _

theorem clearBit_lt (x b : Nat) : clearBit x b < 2 ^ 32 := u32_lt _

theorem testBit_setBit (x b i : Nat) (hx : x < 2 ^ 32) (hb : b < 32) :
    (setBit x b).testBit i = (decide (i = b) || x.testBit i) := by
  have h1 : (1 : Nat) <<< b = 2 ^ b := by simp [Nat.shiftLeft_eq]
  have h2 : 2 ^ b < 2 ^ 32 := Nat.pow_lt_pow_right (by norm_num) hb
  unfold setBit
  rw [h1, u32_of_lt h2]
  unfold u32
  simp only [Nat.testBit_mod_two_pow, Nat.testBit_or, Nat.testBit_two_pow]
  by_cases hi : i < 32
  · by_cases hib : b = i
    · simp [hi, hib]
    · have : i ≠ b := fun h => hib h.symm
      simp [hi, hib, this]
  · have hxi : x.testBit i = false :=
      Nat.testBit_lt_two_pow
        (lt_of_lt_of_le hx (Nat.pow_le_pow_right (by norm_num) (by omega)))
    have hne : i ≠ b := by omega
    have hne2 : b ≠ i := by omega
    simp [hi, hxi, hne, hne2]

theorem testBit_clearBit (x b i : Nat) (hx : x < 2 ^ 32) (hb : b < 32) :
    (clearBit x b).testBit i = (decide (i ≠ b) && x.testBit i) := by
  have h1 : (1 : Nat) <<< b = 2 ^ b := by simp [Nat.shiftLeft_eq]
  have h2 : 2 ^ b < 2 ^ 32 := Nat.pow_lt_pow_right (by norm_num) hb
  unfold clearBit
  rw [h1, u32_of_lt h2]
  have h3 : 2 ^ 32 - 1 - 2 ^ b = 2 ^ 32 - (2 ^ b + 1) := by omega
  rw [h3]
  unfold u32
  simp only [Nat.testBit_mod_two_pow, Nat.testBit_and,
    Nat.testBit_two_pow_sub_succ h2, Nat.testBit_two_pow]
  by_cases hi : i < 32
  · by_cases hib : b = i
    · simp [hi, hib]
    · have : i ≠ b := fun h => hib h.symm
      simp [hi, hib, this]
  · have hxi : x.testBit i = false :=
      Nat.testBit_lt_two_pow
        (lt_of_lt_of_le hx (Nat.pow_le_pow_right (by norm_num) (by omega)))
    simp [hi, hxi]

/-- The three accesses of the fabric clear on one register word. -/
theorem fabricClear_word (x : Nat) (hx : x < 2 ^ 32) :
    clearBit (setBit (setBit x 0) 2) 0 = (x ||| 0b100) &&& (2 ^ 32 - 1 - 0b001) := by
  apply Nat.eq_of_testBit_eq
  intro i
  have h4 : (0b100 : Nat) = 2 ^ 2 := by norm_num
  have h1 : (2 : Nat) ^ 32 - 1 - 0b001 = 2 ^ 32 - (1 + 1) := by norm_num
  have h0 : (1 : Nat) = 2 ^ 0 := by norm_num
  rw [testBit_clearBit _ 0 i (setBit_lt _ _) (by norm_num),
    testBit_setBit _ 2 i (setBit_lt _ _) (by norm_num),
    testBit_setBit x 0 i hx (by norm_num), h1, h4, Nat.testBit_and, Nat.testBit_or,
    Nat.testBit_two_pow_sub_succ (by norm_num), Nat.testBit_two_pow]
  have h1i : Nat.testBit 1 i = decide (0 = i) := by
    have h := @Nat.testBit_two_pow 0 i
    rw [Nat.pow_zero] at h
    exact h
  rw [h1i]
  by_cases hi0 : i = 0
  · subst hi0; simp
  · by_cases hi2 : i = 2
    · subst hi2; simp
    · have hi2b : ¬ (2 = i) := fun h => hi2 h.symm
      have hi0b : ¬ (0 = i) := fun h => hi0 h.symm
      by_cases hi : i < 32
      · simp [hi0, hi2, hi2b, hi0b, hi]
      · have hxi : x.testBit i = false :=
          Nat.testBit_lt_two_pow
            (lt_of_lt_of_le hx (Nat.pow_le_pow_right (by norm_num) (by omega)))
        simp [hi0, hi2, hi2b, hi0b, hi, hxi]


/-- C11: over a simulated backing store indexed by physical address, for every
4-byte-aligned 32-bit address `A` and 32-bit value `V`, the page base plus the
in-page offset is `A`, so an accepted value write of FPGA-writeBridge to `A` stores
`V` in the cell that an accepted FPGA-readBridge request for `A` reads: reading
after writing returns `V`. -/
theorem write_read_roundtrip (A V DecHexBin : Nat) (mem : Mem)
    (w : WriteRequest) (r : ReadRequest)
    (hA : A < 2 ^ 32) (_ : A % 4 = 0) (_ : V < 2 ^ 32) (hD : DecHexBin ≠ BIN_INPUT)
    (hw : w.InputVailed = true) (hwA : w.address = A) (hwV : w.ValueInput = V)
    (hr : r.InputVailed = true) (hrA : r.address = A) :
    (A &&& (2 ^ 32 - 1 - 0xFFF)) + (A &&& 0xFFF) = A ∧
    mappedCell w.address = mappedCell r.address ∧
    ∃ op, writeAccess w DecHexBin = some op ∧ op = MemOp.store A V ∧
      readAccess r (op.apply mem) = some V := by
  have hcell : mappedCell A = A := mappedCell_eq A hA
  refine ⟨hcell, by rw [hwA, hrA], MemOp.store A V, ?_, rfl, ?_⟩
  · unfold writeAccess
    rw [if_pos hw, if_neg hD, hwA, hwV, hcell]
  · unfold readAccess
    rw [if_pos hr, hrA, hcell]
    simp [MemOp.apply]

/-- Witness of C11: the value 123 written with `-mpu FF200000 123` is read back with
`-lw 0`. -/
theorem write_read_roundtrip_witness :
    writeMain Flag.mpu "FF200000".toList DEC_INPUT "123".toList [] [] =
      some ⟨true, 0xFF200000, 0xFF200000, 123, 0, 0, none⟩ ∧
    readMain Flag.lw "0".toList = some ⟨true, 0, 0xFF200000, none⟩ ∧
    ∃ op, writeAccess ⟨true, 0xFF200000, 0xFF200000, 123, 0, 0, none⟩ DEC_INPUT = some op ∧
      op = MemOp.store 0xFF200000 123 ∧
      readAccess ⟨true, 0, 0xFF200000, none⟩ (op.apply (fun _ => 0)) = some 123 :=
  ⟨by decide, by decide,
    (write_read_roundtrip 0xFF200000 123 DEC_INPUT (fun _ => 0)
      ⟨true, 0xFF200000, 0xFF200000, 123, 0, 0, none⟩ ⟨true, 0, 0xFF200000, none⟩
      (by decide) (by decide) (by decide) (by decide) rfl rfl rfl rfl rfl).2.2⟩

/-- C12 (evaluation at the failing input): the request `-lw FF0 : 20` is accepted
with start address `P = 0xFF200FF0` and length `L = 0x20`; the mapping starts at the
page base 0xFF200000 and has the requested length 0x20, one page after rounding, so
it ends at 0xFF201000, below `P + L = 0xFF201010`. -/
theorem dump_mapping_misses_page_crossing :
    dumpMain Space.LW "FF0".toList "20".toList =
      some ⟨true, 0xFF0, 0x20, 0xFF200FF0, 0xFF201010, none, none⟩ ∧
    pageBase 0xFF200FF0 = 0xFF200000 ∧ pageRound 0x20 = 4096 ∧
    pageBase 0xFF200FF0 + pageRound 0x20 < 0xFF200FF0 + 0x20 := by
  decide

/-- C13 (evaluation at the failing input): with the status register reading User
Mode (0x04) after the three commands, `performFPGAfabricClear` returns true, in
console and in machine mode; it returns false only for the state code 0x00. -/
theorem fabricClear_reports_success_in_user_mode :
    readState 1 0x04 = 0x04 ∧
    (FPGAreset.performFPGAfabricClear true 1 0x04).2 = true ∧
    (FPGAreset.performFPGAfabricClear false 1 0x04).2 = true ∧
    (FPGAreset.performFPGAfabricClear true 1 0x00).2 = false ∧
    (FPGAreset.performFPGAfabricClear true 1 0x01).2 = true := by
  decide

/-- C14: for every `reset_typ` in 1..5, `performHPStoFPGAReset` makes exactly two
register accesses, in order: it sets the bit, waits 50 ms, and clears the same bit
at the same address, the address and bit being those of the table; the copy in
FPGA-writeConfig has the same trace as the one in FPGA-reset. -/
theorem reset_pulse_sequence (ConsloeOutput : Bool) (reset_typ : Nat)
    (h1 : 1 ≤ reset_typ) (h5 : reset_typ ≤ 5) :
    traceEffects (FPGAreset.performHPStoFPGAReset ConsloeOutput reset_typ).1 =
      [Effect.access (MemOp.bitSet (resetTarget reset_typ).1 (resetTarget reset_typ).2),
        Effect.wait 50,
        Effect.access (MemOp.bitClear (resetTarget reset_typ).1 (resetTarget reset_typ).2)] ∧
    FPGAwriteConfig.performHPStoFPGAReset ConsloeOutput reset_typ =
      FPGAreset.performHPStoFPGAReset ConsloeOutput reset_typ := by
  have key : ∀ t ∈ [1, 2, 3, 4, 5], ∀ co : Bool,
      traceEffects (FPGAreset.performHPStoFPGAReset co t).1 =
        [Effect.access (MemOp.bitSet (resetTarget t).1 (resetTarget t).2),
          Effect.wait 50,
          Effect.access (MemOp.bitClear (resetTarget t).1 (resetTarget t).2)] ∧
      FPGAwriteConfig.performHPStoFPGAReset co t = FPGAreset.performHPStoFPGAReset co t := by
    decide
  have hmem : reset_typ ∈ [1, 2, 3, 4, 5] := by
    simp only [List.mem_cons, List.mem_singleton, List.mem_nil_iff, or_false]
    omega
  exact key reset_typ hmem ConsloeOutput

/-- Witness of C14: the cold reset sets and clears bit 7 of 0xFFD05020. -/
theorem reset_pulse_sequence_witness :
    traceEffects (FPGAreset.performHPStoFPGAReset false 2).1 =
      [Effect.access (MemOp.bitSet 0xFFD05020 7), Effect.wait 50,
        Effect.access (MemOp.bitClear 0xFFD05020 7)] ∧
    FPGAwriteConfig.performHPStoFPGAReset false 2 =
      FPGAreset.performHPStoFPGAReset false 2 :=
  reset_pulse_sequence false 2 (by decide) (by decide)


theorem fabricClear_effects (ConsloeOutput : Bool) (ptrFpgaManger status : Nat) :
    traceEffects (FPGAreset.performFPGAfabricClear ConsloeOutput ptrFpgaManger status).1 =
      [Effect.access (MemOp.bitSet 0xFF706004 0), Effect.access (MemOp.bitSet 0xFF706004 2),
        Effect.access (MemOp.bitClear 0xFF706004 0)] := by
  unfold FPGAreset.performFPGAfabricClear
  cases ConsloeOutput <;> split_ifs <;> decide

/-- C15: `performFPGAfabricClear` makes exactly three bit accesses to the control
register 0xFF706004, in order bit 0 := 1, bit 2 := 1, bit 0 := 0; on a backing store
whose word at that address is `x`, the word afterwards is `(x | 0b100) & ~0b001` and
no other address changes. -/
theorem fabricClear_sequence (ConsloeOutput : Bool) (ptrFpgaManger status : Nat) (mem : Mem)
    (hx : mem 0xFF706004 < 2 ^ 32) :
    traceEffects (FPGAreset.performFPGAfabricClear ConsloeOutput ptrFpgaManger status).1 =
      [Effect.access (MemOp.bitSet 0xFF706004 0), Effect.access (MemOp.bitSet 0xFF706004 2),
        Effect.access (MemOp.bitClear 0xFF706004 0)] ∧
    runEffects mem
        (traceEffects (FPGAreset.performFPGAfabricClear ConsloeOutput ptrFpgaManger status).1)
        0xFF706004 = (mem 0xFF706004 ||| 0b100) &&& (2 ^ 32 - 1 - 0b001) ∧
    ∀ a, a ≠ 0xFF706004 →
      runEffects mem
        (traceEffects (FPGAreset.performFPGAfabricClear ConsloeOutput ptrFpgaManger status).1)
        a = mem a := by
  rw [fabricClear_effects]
  refine ⟨rfl, ?_, ?_⟩
  · simp only [runEffects, MemOp.apply, Function.update_same]
    exact fabricClear_word _ hx
  · intro a ha
    simp only [runEffects, MemOp.apply]
    rw [Function.update_noteq ha, Function.update_noteq ha, Function.update_noteq ha]

/-- Witness of C15: on a register holding 0x01 the fabric clear leaves 0x04. -/
theorem fabricClear_sequence_witness :
    runEffects (fun _ => 0x01) (traceEffects (FPGAreset.performFPGAfabricClear false 1 0x01).1)
      0xFF706004 = (0x01 ||| 0b100) &&& (2 ^ 32 - 1 - 0b001) :=
  (fabricClear_sequence false 1 0x01 (fun _ => 0x01) (by decide)).2.1

/-- C16 (as stated, refuted): `state2str` does not map the codes 5, 6 and 7 to one
result; code 5 has a text of its own, in FPGA-reset and in FPGA-status. -/
theorem state2str_code5_differs :
    FPGAreset.state2str 5 ≠ FPGAreset.state2str 6 ∧
    FPGAstatus.state2str 5 ≠ FPGAstatus.state2str 6 := by
  decide

/-- C16 (amended): `state2str`, in FPGA-reset and in FPGA-status, maps the codes 0,
1, 2, 3, 4 to the descriptions Powered Off, Reset Phase, Configuration Phase,
Initialization Phase and User Mode in that order, maps code 5 to the description of
a state not yet determined, and maps every code from 6 on, so 6 and 7, to the one
unknown-phase error text; these seven texts are pairwise distinct. -/
theorem state2str_table :
    (List.map FPGAreset.state2str [0, 1, 2, 3, 4, 5, 6] =
      ["\t\t0x00 FPGA Powered Off", "\t\t0x01 FPGA in Reset Phase",
        "\t\t0x02 FPGA in Configuration Phase",
        "\t\t0x03 FPGA in Initialization Phase.\n\t\t\t In CVP configuration, " ++
          "this state indicates IO configuration has completed.",
        "\t\t0x04 FPGA in User Mode",
        "\t\t0x05 FPGA state has not yet been determined.\n\t\t\t " ++
          "This only occurs briefly after reset.",
        "\t\t     ERROR FPGA FABRIC PHASE IS UNKNWON!"]) ∧
    (List.map FPGAreset.state2str [0, 1, 2, 3, 4, 5, 6]).Nodup ∧
    (∀ c, 6 ≤ c → FPGAreset.state2str c = FPGAreset.state2str 6) ∧
    (∀ c, FPGAstatus.state2str c = FPGAreset.state2str c) := by
  have hdef : ∀ k, FPGAreset.state2str (k + 6) = FPGAreset.state2str 6 := fun _ => rfl
  have hsame : ∀ c, FPGAstatus.state2str c = FPGAreset.state2str c := by
    intro c
    match c with
    | 0 => rfl
    | 1 => rfl
    | 2 => rfl
    | 3 => rfl
    | 4 => rfl
    | 5 => rfl
    | k + 6 => rfl
  refine ⟨by decide, by decide, ?_, hsame⟩
  intro c hc
  obtain ⟨k, rfl⟩ : ∃ k, c = k + 6 := ⟨c - 6, by omega⟩
  exact hdef k


/-! ## The dump: rows, header blocks and the ASCII string -/

/-- The row loop ends and yields one row for each multiple of 16 up to and
including `addressEndOffset`. -/
theorem dumpLoop_rows (mem : Mem) (address_start L : Nat) (hL : L + 16 < 65536) :
    ∀ fuel row, row % 16 = 0 → row ≤ L + 16 → (L + 16 - row) / 16 + 1 ≤ fuel →
      ∃ rows, dumpLoop mem address_start L fuel row = some rows ∧
        rows.length = (L + 16 - row) / 16 := by
  intro fuel
  induction fuel with
  | zero => intro row _ _ h; omega
  | succ n ih =>
    intro row hmod hle hfuel
    unfold dumpLoop
    by_cases hr : row ≤ L
    · rw [if_pos hr]
      have hu : u16 (row + 16) = row + 16 := Nat.mod_eq_of_lt (by omega)
      rw [hu]
      obtain ⟨rows, hrows, hlen⟩ := ih (row + 16) (by omega) (by omega) (by omega)
      rw [hrows]
      refine ⟨_, rfl, ?_⟩
      simp only [List.length_cons, hlen]
      omega
    · rw [if_neg hr]
      refine ⟨[], rfl, ?_⟩
      simp only [List.length_nil]
      omega

theorem dataRowCount_rows (rows : List DumpRow) (tail : List DumpItem) :
    dataRowCount (rows.map DumpItem.data ++ tail) = rows.length + dataRowCount tail := by
  induction rows with
  | nil => simp
  | cons r rs ih =>
    show dataRowCount (DumpItem.data r :: (rs.map DumpItem.data ++ tail)) = _
    rw [dataRowCount, ih, List.length_cons]
    omega

theorem headerBeforeRowAux_rows (rows : List DumpRow) (tail : List DumpItem) :
    ∀ (prev : Bool) (k : Nat), 1 ≤ k → k ≤ rows.length →
      headerBeforeRowAux (rows.map DumpItem.data ++ tail) prev k = (decide (k = 1) && prev) := by
  induction rows with
  | nil => intro prev k h1 h2; simp at h2; omega
  | cons r rs ih =>
    intro prev k h1 h2
    show headerBeforeRowAux (DumpItem.data r :: (rs.map DumpItem.data ++ tail)) prev k = _
    rw [headerBeforeRowAux]
    by_cases hk : k = 1
    · simp [hk]
    · rw [if_neg hk]
      simp only [List.length_cons] at h2
      rw [ih false (k - 1) (by omega) (by omega)]
      simp [hk]

/-- The shape of the dump of an accepted request of at most 65519 bytes: one header
block, `addressEndOffset / 16 + 1` rows, and one more header block when
`addressEndOffset > 100`. -/
theorem dumpOutput_shape (mem : Mem) (decMode : Bool) (r : DumpRequest)
    (hacc : r.InputVailed = true) (h0 : 0 < r.addressEndOffset)
    (hL : r.addressEndOffset + 16 < 65536) :
    ∃ rows : List DumpRow, dumpOutput mem decMode r =
        some ([DumpItem.header decMode] ++ rows.map DumpItem.data ++
          (if r.addressEndOffset > 100 then [DumpItem.header decMode] else [])) ∧
      rows.length = r.addressEndOffset / 16 + 1 := by
  obtain ⟨rows, hrows, hlen⟩ := dumpLoop_rows mem r.address_start r.addressEndOffset hL
    (r.addressEndOffset / 16 + 2) 0 (by norm_num) (by omega) (by omega)
  refine ⟨rows, ?_, by omega⟩
  unfold dumpOutput
  rw [if_pos hacc, if_neg (by omega), hrows]

/-- C17 (evaluation at the failing inputs): for the accepted requests of length
16 and of length 4800 FPGA-dumpBridge emits 2 and 301 data rows, one more than
`L / 16`, whatever the memory holds. -/
theorem dump_row_count_off_by_one (mem : Mem) (decMode : Bool) :
    (dumpResolve Space.LW 0 16).InputVailed = true ∧
    (dumpResolve Space.LW 0 4800).InputVailed = true ∧
    (dumpOutput mem decMode (dumpResolve Space.LW 0 16)).map dataRowCount = some 2 ∧
    (dumpOutput mem decMode (dumpResolve Space.LW 0 4800)).map dataRowCount = some 301 := by
  refine ⟨by decide, by decide, ?_, ?_⟩
  · obtain ⟨rows, hout, hlen⟩ := dumpOutput_shape mem decMode (dumpResolve Space.LW 0 16)
      (by decide) (by decide) (by decide)
    rw [hout]
    have h16 : (dumpResolve Space.LW 0 16).addressEndOffset = 16 := rfl
    rw [h16] at hlen
    show some (dataRowCount (DumpItem.header decMode :: (rows.map DumpItem.data ++ _))) = _
    rw [dataRowCount, dataRowCount_rows, hlen, h16]
    rfl
  · obtain ⟨rows, hout, hlen⟩ := dumpOutput_shape mem decMode (dumpResolve Space.LW 0 4800)
      (by decide) (by decide) (by decide)
    rw [hout]
    have h48 : (dumpResolve Space.LW 0 4800).addressEndOffset = 4800 := rfl
    rw [h48] at hlen
    show some (dataRowCount (DumpItem.header decMode :: (rows.map DumpItem.data ++ _))) = _
    rw [dataRowCount, dataRowCount_rows, hlen, h48]
    rfl

/-- C18 (as stated, refuted): in the dump of the accepted request of length 4800,
over a memory of zeros, no header block stands immediately before data row 101,
although `(101 - 1) mod 100 = 0`. -/
theorem dump_no_header_before_row_101 :
    (101 - 1) % 100 = 0 ∧
    (dumpOutput (fun _ => 0) false (dumpResolve Space.LW 0 4800)).map
      (fun items => headerBeforeRow items 101) = some false := by
  refine ⟨by decide, ?_⟩
  obtain ⟨rows, hout, hlen⟩ := dumpOutput_shape (fun _ => 0) false (dumpResolve Space.LW 0 4800)
    (by decide) (by decide) (by decide)
  have h48 : (dumpResolve Space.LW 0 4800).addressEndOffset = 4800 := rfl
  rw [h48] at hlen
  rw [hout]
  show some (headerBeforeRowAux
    (DumpItem.header false :: (rows.map DumpItem.data ++ _)) false 101) = _
  rw [headerBeforeRowAux, headerBeforeRowAux_rows rows _ true 101 (by norm_num) (by omega)]
  rfl

/-- C18 (amended): in the dump of an accepted request of 1 to 4800 bytes the column
header block is printed once before the first data row and once more after the last
data row exactly when the length exceeds 100 bytes; a header block stands
immediately before data row `k` only for `k = 1`. -/
theorem dump_header_placement (mem : Mem) (decMode : Bool) (r : DumpRequest)
    (hacc : r.InputVailed = true) (h0 : 1 ≤ r.addressEndOffset)
    (hL : r.addressEndOffset ≤ 4800) :
    ∃ rows : List DumpRow, dumpOutput mem decMode r =
        some ([DumpItem.header decMode] ++ rows.map DumpItem.data ++
          (if r.addressEndOffset > 100 then [DumpItem.header decMode] else [])) ∧
      rows.length = r.addressEndOffset / 16 + 1 ∧
      ∀ k, 1 ≤ k → k ≤ rows.length →
        (headerBeforeRow ([DumpItem.header decMode] ++ rows.map DumpItem.data ++
          (if r.addressEndOffset > 100 then [DumpItem.header decMode] else [])) k = true
          ↔ k = 1) := by
  obtain ⟨rows, hout, hlen⟩ := dumpOutput_shape mem decMode r hacc (by omega) (by omega)
  refine ⟨rows, hout, hlen, ?_⟩
  intro k h1 hk
  show headerBeforeRowAux
    (DumpItem.header decMode :: (rows.map DumpItem.data ++ _)) false k = true ↔ _
  rw [headerBeforeRowAux, headerBeforeRowAux_rows rows _ true k h1 hk]
  simp

/-- Witness of C18 (amended): the dump of the accepted request `-lw 0 : 40`. -/
theorem dump_header_placement_witness :
    ∃ rows : List DumpRow, dumpOutput (fun _ => 0) false (dumpResolve Space.LW 0 0x40) =
        some ([DumpItem.header false] ++ rows.map DumpItem.data ++
          (if (dumpResolve Space.LW 0 0x40).addressEndOffset > 100
            then [DumpItem.header false] else [])) ∧
      rows.length = (dumpResolve Space.LW 0 0x40).addressEndOffset / 16 + 1 ∧
      ∀ k, 1 ≤ k → k ≤ rows.length →
        (headerBeforeRow ([DumpItem.header false] ++ rows.map DumpItem.data ++
          (if (dumpResolve Space.LW 0 0x40).addressEndOffset > 100
            then [DumpItem.header false] else [])) k = true
          ↔ k = 1) :=
  dump_header_placement (fun _ => 0) false (dumpResolve Space.LW 0 0x40)
    (by decide) (by decide) (by decide)


theorem toNat_ofNat_byte (b : Nat) (hb : b < 256) : (Char.ofNat b).toNat = b := by
  have hv : b.isValidChar := Or.inl (by omega)
  simp [Char.ofNat, hv, Char.ofNatAux, Char.toNat]
  rfl

theorem cleanAscii_byte (b : Nat) (hb : b < 256) :
    cleanAscii [Char.ofNat b] = [glossChar b] := by
  unfold cleanAscii glossChar u8
  simp only [List.map_cons, List.map_nil, toNat_ofNat_byte b hb]
  have : b % 2 ^ 8 = b := Nat.mod_eq_of_lt (by omega)
  rw [this]
  by_cases h1 : b < 32
  · have : ¬ (0x20 ≤ b ∧ b ≤ 0x7E) := by omega
    simp [h1, this]
  · by_cases h2 : b > 126
    · have : ¬ (0x20 ≤ b ∧ b ≤ 0x7E) := by omega
      simp [h2, this]
    · have : 0x20 ≤ b ∧ b ≤ 0x7E := by omega
      simp [h1, h2, this]

theorem and_FF00_shift (x : Nat) : (x &&& 0xFF00) >>> 8 = (x >>> 8) % 256 := by
  apply Nat.eq_of_testBit_eq
  intro i
  have h1 : (0xFF00 : Nat) = (2 ^ 8 - 1) <<< 8 := by decide
  have h2 : (256 : Nat) = 2 ^ 8 := by norm_num
  rw [Nat.testBit_shiftRight, Nat.testBit_and, h1, Nat.testBit_shiftLeft,
    Nat.testBit_two_pow_sub_one, h2, Nat.testBit_mod_two_pow, Nat.testBit_shiftRight]
  have : 8 + i - 8 = i := by omega
  simp [this, Bool.and_comm]

theorem and_FF (x : Nat) : x &&& 0x00FF = x % 256 := by
  have h : (0x00FF : Nat) = 2 ^ 8 - 1 := by norm_num
  rw [h, Nat.and_pow_two_sub_one_eq_mod]

theorem and_FFFF (x : Nat) : x &&& 0xFFFF = x % 65536 := by
  have h : (0xFFFF : Nat) = 2 ^ 16 - 1 := by norm_num
  rw [h, Nat.and_pow_two_sub_one_eq_mod]

/-- The characters a 32-bit word adds to the row string are its four bytes. -/
theorem asciiOfValue_eq (value : Nat) (hv : value < 2 ^ 32) :
    asciiOfValue value = (wordBytes value).map Char.ofNat := by
  unfold asciiOfValue wordBytes u16
  simp only [and_FF00_shift, and_FF, and_FFFF, List.map_cons, List.map_nil]
  simp only [Nat.shiftRight_eq_div_pow]
  have e1 : value / 2 ^ 16 % 2 ^ 16 / 2 ^ 8 % 256 = value / 2 ^ 24 % 256 := by omega
  have e2 : value / 2 ^ 16 % 2 ^ 16 % 256 = value / 2 ^ 16 % 256 := by omega
  have e3 : value % 65536 / 2 ^ 8 % 256 = value / 2 ^ 8 % 256 := by omega
  have e4 : value % 65536 % 256 = value % 256 := by omega
  rw [e1, e2, e3, e4]

theorem cleanAscii_append (a b : List Char) :
    cleanAscii (a ++ b) = cleanAscii a ++ cleanAscii b := by
  unfold cleanAscii
  rw [List.map_append]

theorem wordBytes_lt (value : Nat) : ∀ b ∈ wordBytes value, b < 256 := by
  intro b hb
  unfold wordBytes at hb
  simp only [List.mem_cons, List.mem_singleton, List.mem_nil_iff, or_false] at hb
  rcases hb with h | h | h | h <;> rw [h] <;> exact Nat.mod_lt _ (by norm_num)

theorem cleanAscii_ofNat (bs : List Nat) (h : ∀ b ∈ bs, b < 256) :
    cleanAscii (bs.map Char.ofNat) = bs.map glossChar := by
  induction bs with
  | nil => rfl
  | cons b rest ih =>
    have hb : b < 256 := h b (List.mem_cons_self _ _)
    have hrest : ∀ c ∈ rest, c < 256 := fun c hc => h c (List.mem_cons_of_mem _ hc)
    show cleanAscii ([Char.ofNat b] ++ rest.map Char.ofNat) = _
    rw [cleanAscii_append, cleanAscii_byte b hb, ih hrest]
    rfl

/-- C19: for every dump row over a memory of 32-bit words, the ASCII string has
exactly 16 characters, four per word, one for each byte of the word (the most
significant first): a byte in `[0x20, 0x7E]` is shown as the character with that
code and every other byte as a blank. -/
theorem dump_row_ascii (mem : Mem) (address_start row : Nat)
    (hmem : ∀ a, mem a < 2 ^ 32) :
    (dumpRow mem address_start row).values.length = 4 ∧
    (dumpRow mem address_start row).ascii.length = 16 ∧
    (dumpRow mem address_start row).ascii =
      (dumpRow mem address_start row).values.flatMap
        (fun value => (wordBytes value).map glossChar) := by
  unfold dumpRow
  simp only [List.map_cons, List.map_nil, List.flatMap_cons, List.flatMap_nil,
    List.append_nil, List.length_cons, List.length_nil]
  refine ⟨trivial, ?_, ?_⟩
  · simp [cleanAscii, asciiOfValue]
  · rw [asciiOfValue_eq _ (hmem _), asciiOfValue_eq _ (hmem _), asciiOfValue_eq _ (hmem _),
      asciiOfValue_eq _ (hmem _), cleanAscii_append, cleanAscii_append, cleanAscii_append,
      cleanAscii_ofNat _ (wordBytes_lt _), cleanAscii_ofNat _ (wordBytes_lt _),
      cleanAscii_ofNat _ (wordBytes_lt _), cleanAscii_ofNat _ (wordBytes_lt _)]

/-- Witness of C19: a row over a memory that holds 0x00416231 in every word shows
` Ab1` four times. -/
theorem dump_row_ascii_witness :
    (dumpRow (fun _ => 0x00416231) 0xFF200000 0).ascii = " Ab1 Ab1 Ab1 Ab1".toList ∧
    (dumpRow (fun _ => 0x00416231) 0xFF200000 0).ascii.length = 16 :=
  have h := dump_row_ascii (fun _ => 0x00416231) 0xFF200000 0 (fun _ => (by decide : (0x00416231 : Nat) < 2 ^ 32))
  ⟨by decide, h.2.1⟩


/-! ## The value string of FPGA-writeBridge -/

theorem digitVal_toNat (base : Nat) (c : Char) (h : (digitVal base c).isSome = true) :
    (48 ≤ c.toNat ∧ c.toNat ≤ 57) ∨ (97 ≤ c.toNat ∧ c.toNat ≤ 102) ∨
      (65 ≤ c.toNat ∧ c.toNat ≤ 70) := by
  unfold digitVal at h
  split_ifs at h with h1 h2 h3
  · exact Or.inl h1
  · exact Or.inr (Or.inl h2.2)
  · exact Or.inr (Or.inr h3.2)
  · simp at h

theorem digit_not_space (base : Nat) (c : Char) (h : (digitVal base c).isSome = true) :
    isSpace c = false := by
  have := digitVal_toNat base c h
  unfold isSpace
  simp only [Bool.or_eq_false_iff, Bool.and_eq_false_iff, decide_eq_false_iff_not]
  omega

theorem digit_ne (base : Nat) (c d : Char) (h : (digitVal base c).isSome = true)
    (hd : d.toNat = 45 ∨ d.toNat = 43 ∨ d.toNat = 120 ∨ d.toNat = 88) : c ≠ d := by
  intro hcd
  have := digitVal_toNat base c h
  rw [hcd] at this
  omega

theorem accumDigits_numeral (base : Nat) : ∀ (ds : List Char) (acc : Nat),
    (∀ c ∈ ds, (digitVal base c).isSome = true) →
      accumDigits base ds acc =
        ds.foldl (fun a c => a * base + (digitVal base c).getD 0) acc := by
  intro ds
  induction ds with
  | nil => intro acc _; rfl
  | cons c cs ih =>
    intro acc h
    have hc := h c (List.mem_cons_self _ _)
    obtain ⟨d, hd⟩ := Option.isSome_iff_exists.1 hc
    unfold accumDigits
    rw [hd]
    simp only [List.foldl_cons, hd, Option.getD_some]
    exact ih _ (fun x hx => h x (List.mem_cons_of_mem _ hx))

theorem dropSign_digits (base : Nat) (s : List Char)
    (h : ∀ c ∈ s.head?, (digitVal base c).isSome = true) : dropSign s = s := by
  unfold dropSign
  split
  · exact absurd rfl (digit_ne base '-' '-' (h '-' rfl) (Or.inl rfl))
  · exact absurd rfl (digit_ne base '+' '+' (h '+' rfl) (Or.inr (Or.inl rfl)))
  · rfl

theorem dropHexPrefix_digits (base : Nat) (s : List Char)
    (h : ∀ c ∈ s, (digitVal base c).isSome = true) : dropHexPrefix s = s := by
  unfold dropHexPrefix
  split
  · exact absurd rfl
      (digit_ne base 'x' 'x' (h 'x' (by simp)) (Or.inr (Or.inr (Or.inl rfl))))
  · exact absurd rfl
      (digit_ne base 'X' 'X' (h 'X' (by simp)) (Or.inr (Or.inr (Or.inr rfl))))
  · rfl


/-- The stream extraction of a numeral yields its value, or the largest value of the
type when the value does not fit. -/
theorem extractUnsigned_numeral (base bits : Nat) (s : List Char)
    (hs : isNumeral base s = true) :
    extractUnsigned base bits s =
      if numeralValue base (numeralDigits base s) > 2 ^ bits - 1 then 2 ^ bits - 1
      else numeralValue base (numeralDigits base s) := by
  unfold isNumeral at hs
  simp only [Bool.and_eq_true, Bool.not_eq_true', List.all_eq_true] at hs
  obtain ⟨hne, hall⟩ := hs
  cases s with
  | nil => simp at hne
  | cons c t =>
    by_cases hp : base = 16 ∧ (c :: t).take 2 = "0x".toList
    · -- a hex string with the prefix
      obtain ⟨h16, htake⟩ := hp
      have hnd : numeralDigits base (c :: t) = (c :: t).drop 2 := by
        unfold numeralDigits
        rw [if_pos ⟨h16, htake⟩]
      rw [hnd] at hall ⊢
      cases t with
      | nil => simp at htake
      | cons c2 t2 =>
        have hc : c = '0' := by
          have := congrArg List.head? htake
          simpa using this
        have hc2 : c2 = 'x' := by
          have := congrArg (fun l => l.get? 1) htake
          simpa using this
        subst hc hc2
        unfold extractUnsigned
        have h1 : List.dropWhile isSpace ('0' :: 'x' :: t2) = '0' :: 'x' :: t2 := by
          rw [List.dropWhile_cons_of_neg (by decide)]
        simp only [h1, h16, if_true]
        have h2 : dropSign ('0' :: 'x' :: t2) = '0' :: 'x' :: t2 := rfl
        have h3 : dropHexPrefix ('0' :: 'x' :: t2) = t2 := rfl
        have h4 : (List.head? ('0' :: 'x' :: t2) == some '-') = false := by
          simp only [List.head?_cons]
          decide
        rw [h2, h3, h4]
        have h5 : List.drop 2 ('0' :: 'x' :: t2) = t2 := rfl
        rw [h5] at hall ⊢
        rw [accumDigits_numeral 16 t2 0 (by rw [← h16]; exact hall)]
        rfl
    · -- all characters are digits
      have hnd : numeralDigits base (c :: t) = c :: t := by
        unfold numeralDigits
        rw [if_neg hp]
      rw [hnd] at hall ⊢
      have hc := hall c (List.mem_cons_self _ _)
      unfold extractUnsigned
      have h1 : List.dropWhile isSpace (c :: t) = c :: t := by
        rw [List.dropWhile_cons_of_neg (by rw [digit_not_space base c hc]; simp)]
      have h2 : dropSign (c :: t) = c :: t :=
        dropSign_digits base _ (fun x hx => by
          simp only [List.head?_cons, Option.mem_def, Option.some.injEq] at hx
          rw [← hx]; exact hc)
      have h3 : dropHexPrefix (c :: t) = c :: t := dropHexPrefix_digits base _ hall
      have h4 : (List.head? (c :: t) == some '-') = false := by
        have := digit_ne base c '-' hc (Or.inl rfl)
        simp [this]
      simp only [h1, h2, h3, h4, ite_self]
      rw [accumDigits_numeral base (c :: t) 0 hall]
      rfl

/-- C20: in FPGA-writeBridge, for a decimal or hex value string that passes the
character validation and is a numeral of value `n` below `2^64`, a request whose
address checks have passed is rejected if and only if `n > 2^32 - 1`, and for
`n <= 2^32 - 1` the value written, `ValueInput`, is `n`. -/
theorem write_value_range (flag : Flag) (o : WriteOffset) (DecHexBin : Nat)
    (ValueString BitPosString SetInputString : List Char)
    (hD : DecHexBin = DEC_INPUT ∨ DecHexBin = HEX_INPUT)
    (hvalid : checkIfInputIsVailed ValueString (!(decide (DecHexBin = HEX_INPUT))) = some true)
    (hnum : isNumeral (valueBase DecHexBin) ValueString = true)
    (hfit : valueOf DecHexBin ValueString < 2 ^ 64)
    (ho : o.InputVailed = true) :
    ∃ w, writeResolve flag o DecHexBin ValueString BitPosString SetInputString = some w ∧
      (w.InputVailed = false ↔ valueOf DecHexBin ValueString > 2 ^ 32 - 1) ∧
      (valueOf DecHexBin ValueString ≤ 2 ^ 32 - 1 →
        w.ValueInput = valueOf DecHexBin ValueString) := by
  have hnb : DecHexBin ≠ BIN_INPUT := by
    rcases hD with h | h <;> rw [h] <;> decide
  have htemp : (if DecHexBin = DEC_INPUT then extractUnsigned 10 64 ValueString
      else extractUnsigned 16 64 ValueString) = valueOf DecHexBin ValueString := by
    have hfit2 : ¬ (valueOf DecHexBin ValueString > 2 ^ 64 - 1) := by omega
    rcases hD with h | h
    · have hb : valueBase DecHexBin = 10 := by rw [h]; decide
      rw [if_pos h]
      rw [hb] at hnum
      rw [extractUnsigned_numeral 10 64 ValueString hnum]
      unfold valueOf at hfit2 ⊢
      rw [hb] at hfit2 ⊢
      rw [if_neg hfit2]
    · have hb : valueBase DecHexBin = 16 := by rw [h]; decide
      have hne : ¬ (DecHexBin = DEC_INPUT) := by rw [h]; decide
      rw [if_neg hne]
      rw [hb] at hnum
      rw [extractUnsigned_numeral 16 64 ValueString hnum]
      unfold valueOf at hfit2 ⊢
      rw [hb] at hfit2 ⊢
      rw [if_neg hfit2]
  unfold writeResolve writeValuePhase valueCheck
  rw [if_neg hnb, hvalid]
  simp only [htemp, ho]
  refine ⟨_, rfl, ?_, ?_⟩
  · simp only [UINT32_MAX]
    by_cases hgt : valueOf DecHexBin ValueString > 4294967295
    · have : valueOf DecHexBin ValueString > 2 ^ 32 - 1 := by omega
      simp [hgt, this]
    · have : ¬ (valueOf DecHexBin ValueString > 2 ^ 32 - 1) := by omega
      simp [hgt, this]
  · intro hle
    exact u32_of_lt (by omega)

/-- Witness of C20: the hex value string `0x1FFFFFFFF` is rejected, and so an
accepted offset does not make the request valid. -/
theorem write_value_range_witness :
    valueOf HEX_INPUT "0x1FFFFFFFF".toList = 0x1FFFFFFFF ∧
    ∃ w, writeResolve Flag.lw (writeOffsetChecks Flag.lw 0) HEX_INPUT
        "0x1FFFFFFFF".toList [] [] = some w ∧
      (w.InputVailed = false ↔ valueOf HEX_INPUT "0x1FFFFFFFF".toList > 2 ^ 32 - 1) ∧
      (valueOf HEX_INPUT "0x1FFFFFFFF".toList ≤ 2 ^ 32 - 1 →
        w.ValueInput = valueOf HEX_INPUT "0x1FFFFFFFF".toList) :=
  ⟨by decide,
    write_value_range Flag.lw (writeOffsetChecks Flag.lw 0) HEX_INPUT "0x1FFFFFFFF".toList [] []
      (Or.inr rfl) (by decide) (by decide) (by decide) (by decide)⟩

/-! ## Console output, polling, resources and register decoding -/

/-- C21 (evaluation at the failing inputs): in machine mode a misaligned offset makes
FPGA-readBridge (`-lw A1 -b`) and FPGA-writeBridge (`-lw A1 10 -b`) print the two
lines of the alignment error before the integer -1; for a string with bad
characters and for an offset out of range the output is the integer -1 alone. -/
theorem machine_mode_prints_alignment_error :
    readBridgeConsole (shellWords "FPGA-readBridge -lw A1 -b") =
      some (false, [Out.text "[ ERROR ]  The Address 0x", Out.hex 0xA1,
        Out.text " is not not a 32-bit Address", endl,
        Out.text "           Use the next lower address: 0x", Out.hex 0xA0, endl,
        Out.dec (-1)]) ∧
    writeBridgeConsole (shellWords "FPGA-writeBridge -lw A1 10 -b") =
      some (false, [Out.text "[ ERROR ]  The Address 0x", Out.hex 0xA1,
        Out.text " is not not a 32-bit Address", endl,
        Out.text "           Use the next lower address: 0x", Out.hex 0xA0, endl,
        Out.dec (-1)]) ∧
    readBridgeConsole (shellWords "FPGA-readBridge -lw zz -b") = some (false, [Out.dec (-1)]) ∧
    readBridgeConsole (shellWords "FPGA-readBridge -lw 200000 -b") =
      some (false, [Out.dec (-1)]) ∧
    writeBridgeConsole (shellWords "FPGA-writeBridge -lw zz 10 -b") =
      some (false, [Out.dec (-1)]) := by
  decide

set_option maxRecDepth 100000 in
/-- C22: in the auto refresh mode of FPGA-readBridge (`-r`) the polling loop ends
after exactly 300 register reads, 300 being `REFRECHMODE_MAX_COUNT = 15000 / 50`;
without `-r` the register is read exactly once. -/
theorem refresh_reads_300_times :
    REFRECHMODE_MAX_COUNT = 300 ∧
    (readBridgeArgs (shellWords "FPGA-readBridge -lw 0 -r")).map ReadArgs.refreshMode
      = some true ∧
    (readBridgeArgs (shellWords "FPGA-readBridge -lw 0")).map ReadArgs.refreshMode
      = some false ∧
    (readPolling true).map readCount = some 300 ∧
    (readPolling false).map readCount = some 1 := by
  decide

/-- C23 (evaluation at the failing inputs): when every call succeeds, `main` of
FPGA-status never unmaps the system manager mapping and unmaps the two watchdog
mappings and the clock manager mapping with their base addresses as lengths, not
the 4 bytes they were mapped with; when a mapping fails, `main` of FPGA-status and
of FPGA-reset return -1 with the descriptor left open. -/
theorem status_and_reset_leak_resources :
    FPGAstatus.mainResources true (fun _ => true) =
      ([ResEvent.openFd, ResEvent.mmap MapId.fpgaMangerMap 4,
        ResEvent.mmap MapId.systemMangerMap 0x2C, ResEvent.mmap MapId.wdt0Map 4,
        ResEvent.mmap MapId.wdt1Map 4, ResEvent.mmap MapId.clkmgrMap 4,
        ResEvent.munmap MapId.fpgaMangerMap 4, ResEvent.munmap MapId.wdt0Map 0xFFD02000,
        ResEvent.munmap MapId.wdt1Map 0xFFD03000, ResEvent.munmap MapId.clkmgrMap 0xFFD04000,
        ResEvent.closeFd], 0) ∧
    unmappedOnce (FPGAstatus.mainResources true (fun _ => true)).1 = false ∧
    FPGAstatus.mainResources true (fun m => decide (m = MapId.fpgaMangerMap)) =
      ([ResEvent.openFd, ResEvent.mmap MapId.fpgaMangerMap 4], -1) ∧
    closedOnce (FPGAstatus.mainResources true
      (fun m => decide (m = MapId.fpgaMangerMap))).1 = false ∧
    FPGAreset.mainResources true (fun _ => false) = ([ResEvent.openFd], -1) ∧
    closedOnce (FPGAreset.mainResources true (fun _ => false)).1 = false := by
  decide

set_option maxRecDepth 100000 in
/-- C24: for every MSEL code `c` in `[0, 31]`, `msel2str c` is the unknown-mode error
text if and only if `c` is not one of the twelve table codes; for a table code the
description names a 16-bit width exactly when `c < 8` and a 32-bit width exactly
when `c >= 8`. -/
theorem msel2str_table (c : Nat) (hc : c ≤ 31) :
    (FPGAstatus.msel2str c =
        "\t\t     ERROR MSEL (MODE SELECT) POSITION IS UNKNWON!\n\t\t     " ↔
      c ∉ [0x00, 0x01, 0x02, 0x04, 0x05, 0x06, 0x08, 0x09, 0x0a, 0x0c, 0x0d, 0x0e]) ∧
    (c ∈ [0x00, 0x01, 0x02, 0x04, 0x05, 0x06, 0x08, 0x09, 0x0a, 0x0c, 0x0d, 0x0e] →
      (containsText (FPGAstatus.msel2str c) "16-bit" = true ↔ c < 8) ∧
      (containsText (FPGAstatus.msel2str c) "32-bit" = true ↔ c ≥ 8)) := by
  have key : ∀ k ∈ List.range 32,
      (FPGAstatus.msel2str k =
          "\t\t     ERROR MSEL (MODE SELECT) POSITION IS UNKNWON!\n\t\t     " ↔
        k ∉ [0x00, 0x01, 0x02, 0x04, 0x05, 0x06, 0x08, 0x09, 0x0a, 0x0c, 0x0d, 0x0e]) ∧
      (k ∈ [0x00, 0x01, 0x02, 0x04, 0x05, 0x06, 0x08, 0x09, 0x0a, 0x0c, 0x0d, 0x0e] →
        (containsText (FPGAstatus.msel2str k) "16-bit" = true ↔ k < 8) ∧
        (containsText (FPGAstatus.msel2str k) "32-bit" = true ↔ k ≥ 8)) := by
    decide
  exact key c (List.mem_range.2 (by omega))

set_option maxRecDepth 100000 in
/-- Witness of C24: code 0x09 is a table code with a 32-bit width. -/
theorem msel2str_table_witness :
    (FPGAstatus.msel2str 9 =
        "\t\t     ERROR MSEL (MODE SELECT) POSITION IS UNKNWON!\n\t\t     " ↔
      9 ∉ [0x00, 0x01, 0x02, 0x04, 0x05, 0x06, 0x08, 0x09, 0x0a, 0x0c, 0x0d, 0x0e]) ∧
    (9 ∈ [0x00, 0x01, 0x02, 0x04, 0x05, 0x06, 0x08, 0x09, 0x0a, 0x0c, 0x0d, 0x0e] →
      (containsText (FPGAstatus.msel2str 9) "16-bit" = true ↔ 9 < 8) ∧
      (containsText (FPGAstatus.msel2str 9) "32-bit" = true ↔ 9 ≥ 8)) :=
  msel2str_table 9 (by decide)


theorem and_shifted_mask (v s w : Nat) :
    (v &&& ((2 ^ w - 1) <<< s)) >>> s = (v >>> s) &&& (2 ^ w - 1) := by
  apply Nat.eq_of_testBit_eq
  intro i
  rw [Nat.testBit_shiftRight, Nat.testBit_and, Nat.testBit_shiftLeft, Nat.testBit_and,
    Nat.testBit_shiftRight]
  have h1 : s + i ≥ s := by omega
  have h2 : s + i - s = i := by omega
  simp [h1, h2]

theorem and_mask_lt (x w : Nat) : x &&& (2 ^ w - 1) < 2 ^ w := by
  rw [Nat.and_pow_two_sub_one_eq_mod]
  exact Nat.mod_lt _ (Nat.two_pow_pos w)

theorem extract_eq (v s w : Nat) : extract v s w = (v >>> s) &&& (2 ^ w - 1) := by
  unfold extract
  rw [Nat.shiftLeft_eq, Nat.one_mul]

/-- C25: the state decoding of FPGA-reset and of FPGA-status is the same function:
for every 8-bit code the two `state2str` return the same string, and for every
32-bit status word, read through a pointer that is not 0, the two `readState` return
the same value, the word `& 0x7`. -/
theorem state_decoding_same (c ptrFpgaManger status : Nat)
    (_ : c < 256) (_ : status < 2 ^ 32) (hp : ptrFpgaManger ≠ 0) :
    FPGAstatus.state2str c = FPGAreset.state2str c ∧
    FPGAstatus.readState ptrFpgaManger status = readState ptrFpgaManger status ∧
    readState ptrFpgaManger status = status &&& 0x7 := by
  refine ⟨?_, rfl, ?_⟩
  · match c with
    | 0 => rfl
    | 1 => rfl
    | 2 => rfl
    | 3 => rfl
    | 4 => rfl
    | 5 => rfl
    | k + 6 => rfl
  · unfold readState u8
    rw [if_neg hp]
    have h : status &&& 0x7 < 2 ^ 3 := and_mask_lt status 3
    exact Nat.mod_eq_of_lt (by omega)

/-- Witness of C25: the code 0x04 and the status word 0x0000005C. -/
theorem state_decoding_same_witness :
    FPGAstatus.state2str 4 = FPGAreset.state2str 4 ∧
    FPGAstatus.readState 1 0x5C = readState 1 0x5C ∧
    readState 1 0x5C = 0x5C &&& 0x7 :=
  state_decoding_same 4 1 0x5C (by decide) (by decide) (by decide)

/-- C26: with `extract(v, s, w) = (v >> s) & ((1 << w) - 1)`, for every 32-bit
register word `v` read through a pointer that is not 0, `readState` returns
`extract(v, 0, 3)`, `readMSEL` returns `extract(v, 3, 5)`, `readSiliconRev` returns
`extract(v, 0, 16)` and `readSiliconID` returns `extract(v, 16, 16)`; so `readState`
is in `[0, 7]` and `readMSEL` in `[0, 31]`. -/
theorem readers_are_extracts (ptr v : Nat) (_ : v < 2 ^ 32) (hp : ptr ≠ 0) :
    FPGAstatus.readState ptr v = extract v 0 3 ∧
    FPGAstatus.readMSEL ptr v = extract v 3 5 ∧
    FPGAstatus.readSiliconRev ptr v = extract v 0 16 ∧
    FPGAstatus.readSiliconID ptr v = extract v 16 16 ∧
    FPGAstatus.readState ptr v ≤ 7 ∧ FPGAstatus.readMSEL ptr v ≤ 31 := by
  have e3 : (0x7 : Nat) = 2 ^ 3 - 1 := by norm_num
  have e5 : (0xF8 : Nat) = (2 ^ 5 - 1) <<< 3 := by decide
  have e16 : (0xFFFF : Nat) = 2 ^ 16 - 1 := by norm_num
  have e16s : (0xFFFF0000 : Nat) = (2 ^ 16 - 1) <<< 16 := by decide
  have hstate : FPGAstatus.readState ptr v = extract v 0 3 := by
    unfold FPGAstatus.readState u8
    rw [if_neg hp, extract_eq, Nat.shiftRight_zero, e3]
    have := and_mask_lt v 3
    exact Nat.mod_eq_of_lt (by omega)
  have hmsel : FPGAstatus.readMSEL ptr v = extract v 3 5 := by
    unfold FPGAstatus.readMSEL u8
    rw [if_neg hp, extract_eq, e5, and_shifted_mask]
    have := and_mask_lt (v >>> 3) 5
    exact Nat.mod_eq_of_lt (by omega)
  have hrev : FPGAstatus.readSiliconRev ptr v = extract v 0 16 := by
    unfold FPGAstatus.readSiliconRev u16
    rw [if_neg hp, extract_eq, Nat.shiftRight_zero, e16]
    exact Nat.mod_eq_of_lt (and_mask_lt v 16)
  have hid : FPGAstatus.readSiliconID ptr v = extract v 16 16 := by
    unfold FPGAstatus.readSiliconID u16
    rw [if_neg hp, extract_eq, e16s, and_shifted_mask]
    exact Nat.mod_eq_of_lt (and_mask_lt (v >>> 16) 16)
  refine ⟨hstate, hmsel, hrev, hid, ?_, ?_⟩
  · rw [hstate, extract_eq]
    have := and_mask_lt (v >>> 0) 3
    omega
  · rw [hmsel, extract_eq]
    have := and_mask_lt (v >>> 3) 5
    omega

/-- Witness of C26: the status word 0x0000005C has state 4 and MSEL 0x0B. -/
theorem readers_are_extracts_witness :
    FPGAstatus.readState 1 0x5C = extract 0x5C 0 3 ∧
    FPGAstatus.readMSEL 1 0x5C = extract 0x5C 3 5 ∧
    FPGAstatus.readSiliconRev 1 0x5C = extract 0x5C 0 16 ∧
    FPGAstatus.readSiliconID 1 0x5C = extract 0x5C 16 16 ∧
    FPGAstatus.readState 1 0x5C ≤ 7 ∧ FPGAstatus.readMSEL 1 0x5C ≤ 31 :=
  readers_are_extracts 1 0x5C (by decide) (by decide)

/-- C27 (evaluation at the failing input): for the accepted request `-lw FF0 : 20`
the row with offset 16 is shown with the address 0xFF201000, and its four words are
read at 0xFF200000, 0xFF200004, 0xFF200008 and 0xFF20000C, the start of the page of
`address_start`. -/
theorem dump_reads_wrap_inside_first_page :
    dumpMain Space.LW "FF0".toList "20".toList =
      some ⟨true, 0xFF0, 0x20, 0xFF200FF0, 0xFF201010, none, none⟩ ∧
    (dumpRow (fun _ => 0) 0xFF200FF0 16).address_curent = 0xFF201000 ∧
    (dumpRow (fun _ => 0) 0xFF200FF0 16).cells =
      [0xFF200000, 0xFF200004, 0xFF200008, 0xFF20000C] ∧
    dumpWordCell 0xFF200FF0 0xFF201000 0 ≠ 0xFF200FF0 + 16 + 0 := by
  decide

/-- C28 (evaluation at the failing inputs): for the reset types 0 and 6, outside
1..5, `performHPStoFPGAReset` of FPGA-reset and of FPGA-writeConfig returns true; it
makes no register access, only the wait. -/
theorem unknown_reset_type_reports_success :
    (FPGAreset.performHPStoFPGAReset true 6).2 = true ∧
    (FPGAreset.performHPStoFPGAReset false 6).2 = true ∧
    (FPGAreset.performHPStoFPGAReset true 0).2 = true ∧
    (FPGAwriteConfig.performHPStoFPGAReset true 6).2 = true ∧
    (FPGAreset.performHPStoFPGAReset true 6).1 =
      [Action.print "[ERROR]  Unkown Reset Type to perform!\n", Action.sleep 50,
        Action.print "[SUCCESS] Reset performed\n"] ∧
    traceEffects (FPGAreset.performHPStoFPGAReset true 6).1 = [Effect.wait 50] := by
  decide

/-- C29 (evaluation at the failing input): `hasCan` and `isDualCore` of FPGA-status
return the same value for every register word, both reading bit 0; for the word
0b10, whose bit 1 is set, `hasCan` returns 0. -/
theorem hasCan_reads_bit_0 (ptrsystemManger hpsinfo : Nat) :
    FPGAstatus.hasCan ptrsystemManger hpsinfo = FPGAstatus.isDualCore ptrsystemManger hpsinfo ∧
    FPGAstatus.hasCan 1 0b10 = 0 ∧ FPGAstatus.hasCan 1 0b01 = 1 ∧
    FPGAstatus.isDualCore 1 0b01 = 1 := by
  refine ⟨rfl, by decide, by decide, by decide⟩

set_option maxRecDepth 100000 in
/-- C30 (evaluation at the failing input): for the register word 0x20, whose bit 5
is set, `readModuleSignalEn` returns 0 and the report of `moudleEn2str` has the
`[N] Disable` line for SD/MMC and no `[Y] Enable` line for it; so it has for the word
0xFFFFFFFF. -/
theorem sdmmc_line_ignores_bit_5 :
    0x20 &&& (1 <<< 5) ≠ 0 ∧
    FPGAstatus.readModuleSignalEn 1 0x20 = 0 ∧
    containsText (FPGAstatus.moudleEn2str (FPGAstatus.readModuleSignalEn 1 0x20))
      "[Y] Enable signals from FPGA fabric to HPS SD/MMC controller module interface."
      = false ∧
    containsText (FPGAstatus.moudleEn2str (FPGAstatus.readModuleSignalEn 1 0x20))
      "[N] Disable signals from FPGA fabric to HPS SD/MMC controller module interface."
      = true ∧
    FPGAstatus.readModuleSignalEn 1 0xFFFFFFFF = 0x1F ∧
    containsText (FPGAstatus.moudleEn2str (FPGAstatus.readModuleSignalEn 1 0xFFFFFFFF))
      "[Y] Enable signals from FPGA fabric to HPS SD/MMC controller module interface."
      = false := by
  decide


end RsTools
